import Mathlib

/-!
# Hue code generator: scope tables, symbol resolution, name uniquing, blocks, calls,
backend types, external functions, modules

A shallow embedding of `src/codegen/Visitor.cc` and `src/ast/Call.h`.

Conventions of the embedding:
* C++ pointers (`ast::FunctionType*`, `llvm::FunctionType*`, `llvm::Value*`,
  `BlockScope*`) are addresses, i.e. natural numbers compared by identity; the
  null pointer is `0`.
* `std::map<Text, FunctionSymbolTargetList>` is an association list with at most
  one binding per key; only `find` and `operator[]` are used by the source, and
  neither observes the order of the keys.
* `std::vector` is `List`; `blockStack_` keeps the bottom of the stack first and
  the top (innermost scope) last, as `push_back` builds it.
-/

namespace Hue

/-! ## Scope tables -/

/-- Names (`Text` in the source). -/
abbrev Text := String

/-- The empty name `Text::Empty`. -/
def Text.Empty : Text := ""

/-- Entry of an overload list (`Visitor::FunctionSymbolTarget`). -/
structure FunctionSymbolTarget where
  hueType : Nat
  type : Nat
  value : Nat
  owningScope : Nat
  deriving DecidableEq, Repr

abbrev FunctionSymbolTargetList := List FunctionSymbolTarget

abbrev FunctionSymbolTargetMap := List (Text × FunctionSymbolTargetList)

/-- Lookup of a key, as `std::map::find` (`none` is `end()`). -/
def mapFind : FunctionSymbolTargetMap → Text → Option FunctionSymbolTargetList
  | [], _ => none
  | (k, v) :: rest, name => if k = name then some v else mapFind rest name

/-- Replaces the list bound to an existing key (a write through the reference
that `operator[]` returned). -/
def mapAssign : FunctionSymbolTargetMap → Text → FunctionSymbolTargetList →
    FunctionSymbolTargetMap
  | [], _, _ => []
  | (k, v) :: rest, name, l =>
    if k = name then (k, l) :: rest else (k, v) :: mapAssign rest name l

/-- The effect of `functions_[name]` on the map: a missing key is bound to a
default-constructed (empty) list. -/
def mapIndex (m : FunctionSymbolTargetMap) (name : Text) : FunctionSymbolTargetMap :=
  match mapFind m name with
  | some _ => m
  | none => m ++ [(name, [])]

/-- A lexical scope (`Visitor::BlockScope`): `self` is the address of the scope
object (`this`), `block` the `BasicBlock*` it refers to. -/
structure BlockScope where
  self : Nat
  block : Nat
  functions_ : FunctionSymbolTargetMap
  deriving DecidableEq, Repr

/-- The overload list the scope holds for `name`; empty when the name has no
binding. -/
def BlockScope.overloads (bs : BlockScope) (name : Text) : FunctionSymbolTargetList :=
  (mapFind bs.functions_ name).getD []

/-- The scan of `setFunctionSymbolTarget` over the existing entries: true when
some entry's `type` is `FT`. -/
def hasFunctionType : FunctionSymbolTargetList → Nat → Bool
  | [], _ => false
  | exstingFS :: rest, FT => if exstingFS.type = FT then true else hasFunctionType rest FT

/-- `Visitor::BlockScope::setFunctionSymbolTarget`: the returned flag and the
scope afterwards. -/
def BlockScope.setFunctionSymbolTarget (bs : BlockScope) (name : Text)
    (hueT FT V : Nat) : Bool × BlockScope :=
  let functions1 := mapIndex bs.functions_ name
  let funcs := (mapFind functions1 name).getD []
  if funcs.length ≠ 0 ∧ hasFunctionType funcs FT = true then
    (false, { bs with functions_ := functions1 })
  else
    let symbol : FunctionSymbolTarget :=
      { hueType := hueT, type := FT, value := V, owningScope := bs.self }
    (true, { bs with functions_ := mapAssign functions1 name (funcs ++ [symbol]) })

/-- Modelled from the spec: `BlockScope::lookupFunctionSymbolTargets` is declared
outside the given sources; it yields the overload list of `name` when the scope
has one ("if `name` has an overload list") and null otherwise. -/
def BlockScope.lookupFunctionSymbolTargets (bs : BlockScope) (name : Text) :
    Option FunctionSymbolTargetList :=
  mapFind bs.functions_ name

/-- A symbol reference (`ast::Symbol`): only its pathname is read. -/
structure Symbol where
  pathname : List Text
  deriving DecidableEq, Repr

/-- The name `lookupFunctionSymbols` resolves. -/
def Symbol.lookupName (symbol : Symbol) : Text :=
  if symbol.pathname.length > 0 then symbol.pathname.headD Text.Empty else Text.Empty

/-- `Visitor::lookupFunctionSymbols`: scans the scopes from the top of the stack
down and inserts every overload list found at the end of `found`. -/
def lookupFunctionSymbols (blockStack_ : List BlockScope) (symbol : Symbol) :
    FunctionSymbolTargetList :=
  let name := symbol.lookupName
  blockStack_.reverse.foldl
    (fun found bs =>
      match bs.lookupFunctionSymbolTargets name with
      | some funcSymbols => found ++ funcSymbols
      | none => found)
    []

/-! ## Module-unique names -/

/-- Byte strings (`std::string`), one `Char` per byte. -/
abbrev StdString := List Char

/-- `Text::UTF8String`. -/
def Text.UTF8String (name : Text) : StdString := name.toList

/-- The symbol tables of the `llvm::Module` that `uniqueMangledName` queries:
the names for which `getNamedValue` is non-null and those for which
`getNamedGlobal` is non-null. -/
structure Module where
  namedValues : List StdString
  namedGlobals : List StdString
  deriving DecidableEq, Repr

/-- `module_->getNamedValue(mname) == 0`. -/
def Module.getNamedValueIsNull (module_ : Module) (mname : StdString) : Bool :=
  !(module_.namedValues.contains mname)

/-- `module_->getNamedGlobal(mname) == 0`. -/
def Module.getNamedGlobalIsNull (module_ : Module) (mname : StdString) : Bool :=
  !(module_.namedGlobals.contains mname)

/-- Largest value of the counter `int i`. -/
def INT_MAX : Nat := 2147483647

/-- What `snprintf(buf, 12, "__%d", i)` leaves in `char buf[12]` for `i ≥ 0`:
the formatted text cut to the 11 characters that fit before the terminating
NUL. -/
def snprintfSuffix (i : Nat) : StdString :=
  (['_', '_'] ++ Nat.toDigits 10 i).take 11

/-- The name tried in iteration `i` of the loop of `uniqueMangledName`;
`mangledName` is declared outside the given sources and is a parameter. -/
def candidateName (mangledName : StdString → StdString) (utf8name : StdString)
    (i : Nat) : StdString :=
  if i > 0 then mangledName (utf8name ++ snprintfSuffix i) else mangledName utf8name

/-- The `while (1)` loop of `uniqueMangledName` entered with counter `i`.
`fuel` is the number of values the counter may still take: at `fuel = 0` the
counter would have to pass `INT_MAX`, where `++i` overflows `int` and the
function returns no name (`none`). -/
def uniqueMangledNameLoop (mangledName : StdString → StdString) (module_ : Module)
    (utf8name : StdString) : Nat → Nat → Option StdString
  | 0, _ => none
  | fuel + 1, i =>
    let mname := candidateName mangledName utf8name i
    if module_.getNamedValueIsNull mname && module_.getNamedGlobalIsNull mname then
      some mname
    else
      uniqueMangledNameLoop mangledName module_ utf8name fuel (i + 1)

/-- `Visitor::uniqueMangledName`: the counter starts at `0` and ranges over
`0 .. INT_MAX`. -/
def uniqueMangledName (mangledName : StdString → StdString) (module_ : Module)
    (name : Text) : Option StdString :=
  uniqueMangledNameLoop mangledName module_ name.UTF8String (INT_MAX + 1) 0

/-- The module in which every name the loop can try for `utf8name` with a
counter below `10 ^ 9` is a named value. -/
def saturatedModule (mangledName : StdString → StdString) (utf8name : StdString) :
    Module :=
  { namedValues := (List.range (10 ^ 9)).map (candidateName mangledName utf8name)
    namedGlobals := [] }

/-- The name the uniquing scheme designates for counter `i`, with the suffix
written out in full: the mangled base name for `i = 0`, and the mangled name
with `__i` appended, `i` in decimal, otherwise. -/
def suffixedName (mangledName : StdString → StdString) (utf8name : StdString)
    (i : Nat) : StdString :=
  if i > 0 then mangledName (utf8name ++ (['_', '_'] ++ Nat.toDigits 10 i))
  else mangledName utf8name

/-! ## Blocks -/

/-- Generated values (`llvm::Value*`); `0` is the null failure sentinel. -/
abbrev Value := Nat

/-- The parts of the visitor that `codegenBlock` calls and that are declared
outside the given sources: the dispatcher `codegen(expr)`, acting on the
visitor state `σ`, and the diagnostic sink behind `error`. -/
structure Codegen (σ Expr : Type) where
  codegen : Expr → σ → Value × σ
  report : String → σ → σ

/-- Modelled from the spec: `error(message)` is declared outside the given
sources; it reports the message and always returns the sentinel meaning
"generation failed here", the null value. -/
def Codegen.error {σ Expr : Type} (cg : Codegen σ Expr) (message : String) (st : σ) :
    Value × σ :=
  (0, cg.report message st)

/-- A block node (`ast::Block`). -/
structure Block (Expr : Type) where
  expressions : List Expr

/-- Outcome of `codegenBlock`: the returned value, the visitor state, and the
expressions that were handed to `codegen`, in call order. -/
structure BlockRun (σ Expr : Type) where
  value : Value
  state : σ
  generated : List Expr

/-- The `for` loop of `codegenBlock` over the remaining expressions, with the
current `lastValue`. The flag is true when the loop left the function early
through `return 0`. -/
def codegenBlockLoop {σ Expr : Type} (cg : Codegen σ Expr) :
    List Expr → Value → σ → List Expr → Bool × BlockRun σ Expr
  | [], lastValue, st, gen => (false, ⟨lastValue, st, gen⟩)
  | e :: rest, _, st, gen =>
    let r := cg.codegen e st
    if r.1 = 0 then (true, ⟨0, r.2, gen ++ [e]⟩)
    else codegenBlockLoop cg rest r.1 r.2 (gen ++ [e])

/-- `Visitor::codegenBlock`. -/
def codegenBlock {σ Expr : Type} (cg : Codegen σ Expr) (block : Block Expr) (st : σ) :
    BlockRun σ Expr :=
  match codegenBlockLoop cg block.expressions 0 st [] with
  | (true, run) => run
  | (false, run) =>
    if run.value = 0 then
      let r := cg.error "Empty block" run.state
      ⟨r.1, r.2, run.generated⟩
    else run

/-- Reference run used to state the block properties: the result of `codegen`
on each expression of the list in turn, each started in the state its
predecessor left. -/
def childRuns {σ Expr : Type} (cg : Codegen σ Expr) : List Expr → σ → List (Value × σ)
  | [], _ => []
  | e :: rest, st => cg.codegen e st :: childRuns cg rest (cg.codegen e st).2

/-! ## Calls -/

/-- Modelled from the spec: the AST type class `Type` is declared outside the
given sources; a type is either the `Unknown` placeholder or a concrete type. -/
inductive ASTType where
  | Unknown
  | Concrete (id : Nat)
  deriving DecidableEq, Repr

/-- `Type::isUnknown`: true exactly for the `Unknown` variant. -/
def ASTType.isUnknown : ASTType → Bool
  | .Unknown => true
  | .Concrete _ => false

/-- Modelled from the spec: `ast::Function` is declared outside the given
sources; a function carries a result type, read by `resultType()` and written
by `setResultType(T)`. -/
structure Function where
  resultType_ : ASTType
  deriving DecidableEq, Repr

/-- Modelled from the spec: `Function::resultType`. -/
def Function.resultType (F : Function) : ASTType := F.resultType_

/-- Modelled from the spec: `Function::setResultType`. -/
def Function.setResultType (F : Function) (T : ASTType) : Function :=
  { F with resultType_ := T }

/-- The `Function` objects of the tree by address; `Call::callee_` is a weak
pointer into this store. -/
abbrev FunctionStore := Nat → Function

/-- A call node (`ast::Call`): `callee_` is `none` for the null pointer,
`resultType_` is the field inherited from `Expression`. -/
structure Call where
  calleeName_ : Text
  args_ : List Nat
  callee_ : Option Nat
  resultType_ : ASTType

/-- The constructor `Call(calleeName, args)`: no callee, and the inherited
result type starts as `Type::Unknown`. -/
def Call.new (calleeName : Text) (args : List Nat) : Call :=
  { calleeName_ := calleeName, args_ := args, callee_ := none, resultType_ := .Unknown }

/-- `Call::setCallee`. -/
def Call.setCallee (c : Call) (F : Option Nat) : Call := { c with callee_ := F }

/-- `Call::resultType`. -/
def Call.resultType (c : Call) (store : FunctionStore) : ASTType :=
  match c.callee_ with
  | some F => (store F).resultType
  | none => c.resultType_

/-- `Call::setResultType`: `none` when the assertion `T->isUnknown() == false`
fails, otherwise the call node and the function store afterwards. -/
def Call.setResultType (c : Call) (T : ASTType) (store : FunctionStore) :
    Option (Call × FunctionStore) :=
  if T.isUnknown then none
  else
    match c.callee_ with
    | some F =>
      if (store F).resultType.isUnknown then
        some (c, Function.update store F ((store F).setResultType T))
      else some (c, store)
    | none => some (c, store)

/-- A run of `setResultType` calls on one call node, in order: `none` as soon as
one of them fails its assertion. -/
def Call.setResultTypes (c : Call) (store : FunctionStore) :
    List ASTType → Option (Call × FunctionStore)
  | [] => some (c, store)
  | T :: rest =>
    match c.setResultType T store with
    | none => none
    | some r => Call.setResultTypes r.1 r.2 rest

/-! ## Scope lifetime -/

/-- The arguments of one `setFunctionSymbolTarget` call. -/
structure Registration where
  name : Text
  hueT : Nat
  FT : Nat
  V : Nat
  deriving DecidableEq, Repr

/-- A newly created scope at address `self` for the basic block `block`: its
table of callables is empty. -/
def BlockScope.new (self block : Nat) : BlockScope :=
  { self := self, block := block, functions_ := [] }

/-- The scope after a sequence of `setFunctionSymbolTarget` calls (the flags
returned are dropped). -/
def BlockScope.registerAll (bs : BlockScope) : List Registration → BlockScope
  | [] => bs
  | r :: rest =>
    BlockScope.registerAll (bs.setFunctionSymbolTarget r.name r.hueT r.FT r.V).2 rest

/-- Scopes reachable from an empty scope by `setFunctionSymbolTarget` calls. -/
def BlockScope.Reachable (bs : BlockScope) : Prop :=
  ∃ (self block : Nat) (ops : List Registration),
    bs = (BlockScope.new self block).registerAll ops

/-- Modelled from the spec: pushing a scope is declared outside the given
sources; the new scope becomes the top of the stack. -/
def pushScope (blockStack_ : List BlockScope) (bs : BlockScope) : List BlockScope :=
  blockStack_ ++ [bs]

/-- Modelled from the spec: `popScope()` is declared outside the given sources;
it removes the top scope. -/
def popScope (blockStack_ : List BlockScope) : List BlockScope :=
  blockStack_.dropLast

/-! ## Backend types -/

/-- The type identifiers of the backend, as listed in `Visitor::typeName`. -/
inductive TypeID where
  | VoidTyID
  | FloatTyID
  | DoubleTyID
  | X86_FP80TyID
  | FP128TyID
  | PPC_FP128TyID
  | LabelTyID
  | MetadataTyID
  | X86_MMXTyID
  | IntegerTyID
  | FunctionTyID
  | StructTyID
  | ArrayTyID
  | PointerTyID
  | VectorTyID
  deriving DecidableEq, Repr

/-- A backend type (`llvm::Type`) as far as the visitor inspects it: its
identifier and its contained types. -/
inductive IRType where
  | mk (typeID : TypeID) (containedTypes : List IRType)

/-- `Type::getTypeID`. -/
def IRType.getTypeID : IRType → TypeID
  | .mk typeID _ => typeID

/-- The contained types of a type, in order. -/
def IRType.containedTypes : IRType → List IRType
  | .mk _ containedTypes => containedTypes

/-- `Type::isFunctionTy`. -/
def IRType.isFunctionTy (T : IRType) : Bool := T.getTypeID = TypeID.FunctionTyID

/-- `Type::isPointerTy`. -/
def IRType.isPointerTy (T : IRType) : Bool := T.getTypeID = TypeID.PointerTyID

/-- `Type::getNumContainedTypes`. -/
def IRType.getNumContainedTypes (T : IRType) : Nat := T.containedTypes.length

/-- `Type::getContainedType(i)`; `none` when `i` is out of range. -/
def IRType.getContainedType (T : IRType) (i : Nat) : Option IRType := T.containedTypes[i]?

/-- The void type, `builder_.getVoidTy()`. -/
def IRType.voidTy : IRType := .mk TypeID.VoidTyID []

/-- The object behind an `llvm::Value*`, as far as `functionTypeForValue` reads
it: its type. -/
structure ValueObject where
  getType : IRType

/-- `Visitor::functionTypeForValue`; the argument is `none` for a null pointer
and so is the result. -/
def functionTypeForValue (V : Option ValueObject) : Option IRType :=
  match V with
  | none => none
  | some v =>
    let T := v.getType
    if T.isFunctionTy then some T
    else if T.isPointerTy ∧ T.getNumContainedTypes = 1 then
      match T.getContainedType 0 with
      | some C => if C.isFunctionTy then some C else none
      | none => none
    else none

/-! ## External functions -/

/-- Modelled from the spec: `ast::FunctionType` is declared outside the given
sources; it has an ordered sequence of parameter types and a result type, which
may be `Unknown`. -/
structure ASTFunctionType where
  args : List ASTType
  resultType : ASTType
  deriving DecidableEq, Repr

/-- Modelled from the spec: `FunctionType::resultTypeIsUnknown`. -/
def ASTFunctionType.resultTypeIsUnknown (astFT : ASTFunctionType) : Bool :=
  astFT.resultType.isUnknown

/-- An external function declaration (`ast::ExternalFunction`). -/
structure ExternalFunction where
  name : Text
  functionType : ASTFunctionType
  deriving DecidableEq, Repr

/-- The members of the visitor that the two functions below call and that are
declared outside the given sources: the type translation `IRTypeForASTType`
(`none` is a null result), `codegenFunctionType`, and the diagnostic sink
behind `error`. -/
structure TypeCodegen (σ : Type) where
  IRTypeForASTType : ASTType → Option IRType
  codegenFunctionType : ASTFunctionType → StdString → IRType → σ → Value × σ
  report : String → σ → σ

/-- Modelled from the spec: `error(message)` reports the message and returns
the null sentinel. -/
def TypeCodegen.error {σ : Type} (cg : TypeCodegen σ) (message : String) (st : σ) :
    Value × σ :=
  (0, cg.report message st)

/-- `Visitor::returnTypeForFunctionType`. -/
def returnTypeForFunctionType {σ : Type} (cg : TypeCodegen σ) (astFT : ASTFunctionType) :
    Option IRType :=
  if astFT.resultTypeIsUnknown then some IRType.voidTy
  else cg.IRTypeForASTType astFT.resultType

/-- `Visitor::codegenExternalFunction`. -/
def codegenExternalFunction {σ : Type} (cg : TypeCodegen σ) (node : ExternalFunction)
    (st : σ) : Value × σ :=
  match cg.IRTypeForASTType node.functionType.resultType with
  | none => cg.error "Unable to transcode return type from AST to IR" st
  | some returnType =>
    cg.codegenFunctionType node.functionType node.name.UTF8String returnType st

/-! ## Modules -/

/-- The state of the visitor around `genModule`: the current-module handle
`module_` (`none` is null), the modules destroyed with `delete`, and the rest of
the state. -/
structure VisitorState (σ : Type) where
  module_ : Option Nat
  deleted : List Nat
  rest : σ

/-- The members that `genModule` calls and that are declared outside the given
sources: `newModule` is the address at which `new Module(name, context)` creates
the module, `codegenFunction` is the generation of the root function, called
as `codegenFunction(root, "main", "main", returnValue->getType(), returnValue)`
with `returnValue` the 64-bit constant `0`. -/
structure ModuleCodegen (σ : Type) where
  newModule : StdString → Nat
  codegenFunction : Nat → StdString → StdString → VisitorState σ → Value × VisitorState σ

/-- `Visitor::genModule`: the returned module pointer (`none` is null) and the
state afterwards. -/
def genModule {σ : Type} (cg : ModuleCodegen σ) (moduleName : Text) (root : Nat)
    (v : VisitorState σ) : Option Nat × VisitorState σ :=
  let module := cg.newModule moduleName.UTF8String
  let v1 : VisitorState σ := { v with module_ := some module }
  let r := cg.codegenFunction root "main".toList "main".toList v1
  let v2 : VisitorState σ := { r.2 with module_ := none }
  if r.1 = 0 then (none, { v2 with deleted := v2.deleted ++ [module] })
  else (some module, v2)

/-! ## Theorems -/

/-! ### Association-list facts -/

theorem mapFind_append (m m2 : FunctionSymbolTargetMap) (name : Text) :
    mapFind (m ++ m2) name =
      match mapFind m name with
      | some l => some l
      | none => mapFind m2 name := by
  induction m with
  | nil => simp [mapFind]
  | cons p rest ih =>
    obtain ⟨k, v⟩ := p
    by_cases hk : k = name
    · simp [mapFind, hk]
    · simp [mapFind, hk, ih]

theorem mapFind_mapIndex_self (m : FunctionSymbolTargetMap) (name : Text) :
    mapFind (mapIndex m name) name = some ((mapFind m name).getD []) := by
  unfold mapIndex
  cases h : mapFind m name with
  | some l => simp [h]
  | none => simp [mapFind_append, h, mapFind]

theorem mapFind_mapIndex_other (m : FunctionSymbolTargetMap) (name other : Text)
    (h : other ≠ name) : mapFind (mapIndex m name) other = mapFind m other := by
  unfold mapIndex
  cases hf : mapFind m name with
  | some l => simp
  | none =>
    have hne : ¬ name = other := fun e => h e.symm
    cases ho : mapFind m other <;> simp [mapFind_append, ho, mapFind, hne]

theorem mapFind_mapAssign_self (m : FunctionSymbolTargetMap) (name : Text)
    (l old : FunctionSymbolTargetList) (h : mapFind m name = some old) :
    mapFind (mapAssign m name l) name = some l := by
  induction m with
  | nil => simp [mapFind] at h
  | cons p rest ih =>
    obtain ⟨k, v⟩ := p
    by_cases hk : k = name
    · simp [mapAssign, mapFind, hk]
    · simp only [mapFind, hk, if_false] at h
      simp [mapAssign, mapFind, hk, ih h]

theorem mapFind_mapAssign_other (m : FunctionSymbolTargetMap) (name other : Text)
    (l : FunctionSymbolTargetList) (h : other ≠ name) :
    mapFind (mapAssign m name l) other = mapFind m other := by
  induction m with
  | nil => simp [mapAssign]
  | cons p rest ih =>
    obtain ⟨k, v⟩ := p
    by_cases hk : k = name
    · have hne : ¬ name = other := fun e => h e.symm
      simp [mapAssign, mapFind, hk, hne]
    · by_cases hko : k = other
      · subst hko
        simp [mapAssign, mapFind, hk]
      · simp [mapAssign, mapFind, hk, hko, ih]

theorem hasFunctionType_iff (l : FunctionSymbolTargetList) (FT : Nat) :
    hasFunctionType l FT = true ↔ ∃ e ∈ l, e.type = FT := by
  induction l with
  | nil => simp [hasFunctionType]
  | cons e rest ih =>
    by_cases he : e.type = FT
    · simp [hasFunctionType, he]
    · simp [hasFunctionType, he, ih]

/-! ### Registration -/

/-- The flag returned by `setFunctionSymbolTarget` is false exactly when the scan
finds an entry of the same backend function type. -/
theorem setFunctionSymbolTarget_fst (bs : BlockScope) (name : Text) (hueT FT V : Nat) :
    (bs.setFunctionSymbolTarget name hueT FT V).1 = false ↔
      ∃ e ∈ bs.overloads name, e.type = FT := by
  unfold BlockScope.setFunctionSymbolTarget BlockScope.overloads
  simp only [mapFind_mapIndex_self, Option.getD_some]
  rw [← hasFunctionType_iff]
  by_cases hs : hasFunctionType ((mapFind bs.functions_ name).getD []) FT = true
  · have hlen : ((mapFind bs.functions_ name).getD []).length ≠ 0 := by
      intro h0
      rw [List.length_eq_zero] at h0
      rw [h0] at hs
      simp [hasFunctionType] at hs
    simp [hs, hlen]
  · simp [hs]

/-- When `setFunctionSymbolTarget` returns false the scope is the one it was. -/
theorem setFunctionSymbolTarget_false_unchanged (bs : BlockScope) (name : Text)
    (hueT FT V : Nat) (h : (bs.setFunctionSymbolTarget name hueT FT V).1 = false) :
    (bs.setFunctionSymbolTarget name hueT FT V).2 = bs := by
  have hex := (setFunctionSymbolTarget_fst bs name hueT FT V).1 h
  obtain ⟨e, hmem, _⟩ := hex
  have hsome : ∃ l, mapFind bs.functions_ name = some l := by
    unfold BlockScope.overloads at hmem
    cases hf : mapFind bs.functions_ name with
    | none => simp [hf] at hmem
    | some l => exact ⟨l, rfl⟩
  obtain ⟨l, hl⟩ := hsome
  have hidx : mapIndex bs.functions_ name = bs.functions_ := by
    simp [mapIndex, hl]
  unfold BlockScope.setFunctionSymbolTarget at h ⊢
  simp only [hidx] at h ⊢
  split
  · rfl
  · rename_i hc
    rw [if_neg hc] at h
    simp at h

/-- When `setFunctionSymbolTarget` returns true, the overload list of `name` is
the previous one with the new entry at the end. -/
theorem setFunctionSymbolTarget_true_overloads (bs : BlockScope) (name : Text)
    (hueT FT V : Nat) (h : (bs.setFunctionSymbolTarget name hueT FT V).1 = true) :
    mapFind (bs.setFunctionSymbolTarget name hueT FT V).2.functions_ name =
      some (bs.overloads name ++
        [{ hueType := hueT, type := FT, value := V, owningScope := bs.self }]) := by
  unfold BlockScope.setFunctionSymbolTarget at h ⊢
  simp only [mapFind_mapIndex_self, Option.getD_some] at h ⊢
  split
  · rename_i hc
    simp [hc] at h
  · simp only [BlockScope.overloads]
    exact mapFind_mapAssign_self _ _ _ _ (mapFind_mapIndex_self _ _)

/-- Registration under `name` does not touch the binding of another name. -/
theorem setFunctionSymbolTarget_other (bs : BlockScope) (name other : Text)
    (hueT FT V : Nat) (h : other ≠ name) :
    mapFind (bs.setFunctionSymbolTarget name hueT FT V).2.functions_ other =
      mapFind bs.functions_ other := by
  unfold BlockScope.setFunctionSymbolTarget
  simp only []
  split
  · exact mapFind_mapIndex_other _ _ _ h
  · simp only []
    rw [mapFind_mapAssign_other _ _ _ _ h, mapFind_mapIndex_other _ _ _ h]

/-- The scope keeps its address and block across registration. -/
theorem setFunctionSymbolTarget_self (bs : BlockScope) (name : Text) (hueT FT V : Nat) :
    (bs.setFunctionSymbolTarget name hueT FT V).2.self = bs.self ∧
      (bs.setFunctionSymbolTarget name hueT FT V).2.block = bs.block := by
  unfold BlockScope.setFunctionSymbolTarget
  simp only []
  split <;> exact ⟨rfl, rfl⟩

/-! ### Resolution -/

theorem lookup_foldl (name : Text) (l : List BlockScope) (acc : FunctionSymbolTargetList) :
    l.foldl
        (fun found bs =>
          match bs.lookupFunctionSymbolTargets name with
          | some funcSymbols => found ++ funcSymbols
          | none => found)
        acc =
      acc ++ (l.map (fun bs => bs.overloads name)).flatten := by
  induction l generalizing acc with
  | nil => simp
  | cons bs rest ih =>
    simp only [List.foldl_cons, List.map_cons, List.flatten_cons]
    rw [ih]
    unfold BlockScope.lookupFunctionSymbolTargets BlockScope.overloads
    cases mapFind bs.functions_ name <;> simp

/-- The result of resolution as a concatenation from the top of the stack. -/
theorem lookupFunctionSymbols_eq (blockStack_ : List BlockScope) (symbol : Symbol) :
    lookupFunctionSymbols blockStack_ symbol =
      (blockStack_.reverse.map (fun bs => bs.overloads symbol.lookupName)).flatten := by
  unfold lookupFunctionSymbols
  simp only []
  rw [lookup_foldl]
  simp

/-- Resolution over a stack split in two: the upper part comes first. -/
theorem lookupFunctionSymbols_append (lower upper : List BlockScope) (symbol : Symbol) :
    lookupFunctionSymbols (lower ++ upper) symbol =
      lookupFunctionSymbols upper symbol ++ lookupFunctionSymbols lower symbol := by
  simp [lookupFunctionSymbols_eq]

/-! ### Claims on the scope tables -/

/-- C1: `lookupFunctionSymbols` returns exactly the concatenation, over the
scopes of the stack from the top (innermost) to the bottom (outermost), of each
scope's overload list for the resolved name; the walk does not stop at the first
scope declaring the name, so with an inner scope anywhere above an outer one all
entries of the inner scope precede all entries of the outer scope. -/
theorem C1_lookupFunctionSymbols_concatenation (blockStack_ : List BlockScope)
    (symbol : Symbol) (below between above : List BlockScope) (outer inner : BlockScope) :
    lookupFunctionSymbols blockStack_ symbol =
        (blockStack_.reverse.map (fun bs => bs.overloads symbol.lookupName)).flatten ∧
      lookupFunctionSymbols [outer, inner] symbol =
        inner.overloads symbol.lookupName ++ outer.overloads symbol.lookupName ∧
      lookupFunctionSymbols (below ++ [outer] ++ between ++ [inner] ++ above) symbol =
        lookupFunctionSymbols above symbol ++ inner.overloads symbol.lookupName ++
          lookupFunctionSymbols between symbol ++ outer.overloads symbol.lookupName ++
          lookupFunctionSymbols below symbol := by
  refine ⟨lookupFunctionSymbols_eq _ _, ?_, ?_⟩
  · simp [lookupFunctionSymbols_eq]
  · simp [lookupFunctionSymbols_eq]

/-- C2, as stated, fails: after registering `f` with AST type `1` and backend
type `10` in an empty scope, registering `f` with AST type `2` and the same
backend type `10` returns false although no entry has the pair `(2, 10)`. -/
theorem C2_pair_identity_counterexample :
    ((({ self := 7, block := 3, functions_ := [] } : BlockScope).setFunctionSymbolTarget
        "f" 1 10 100).2.setFunctionSymbolTarget "f" 2 10 200).1 = false ∧
      ¬ ∃ e ∈ (({ self := 7, block := 3, functions_ := [] } : BlockScope).setFunctionSymbolTarget
          "f" 1 10 100).2.overloads "f", e.hueType = 2 ∧ e.type = 10 := by
  decide

/-- C2 (amended): `setFunctionSymbolTarget` returns false if and only if the
scope's overload list for the name already contains an entry whose backend
function type is `FT` (the AST function type is not compared); and whenever it
returns false the scope, its name table included, is left unchanged. -/
theorem C2_false_iff_backend_type_present (bs : BlockScope) (name : Text)
    (hueT FT V : Nat) :
    ((bs.setFunctionSymbolTarget name hueT FT V).1 = false ↔
        ∃ e ∈ bs.overloads name, e.type = FT) ∧
      ((bs.setFunctionSymbolTarget name hueT FT V).1 = false →
        (bs.setFunctionSymbolTarget name hueT FT V).2 = bs ∧
          (bs.setFunctionSymbolTarget name hueT FT V).2.functions_ = bs.functions_) := by
  refine ⟨setFunctionSymbolTarget_fst bs name hueT FT V, fun h => ?_⟩
  have hu := setFunctionSymbolTarget_false_unchanged bs name hueT FT V h
  exact ⟨hu, by rw [hu]⟩

/-- C2 (amended), at a scope holding `f` with backend type `10`: a second
registration with backend type `10` is refused and changes nothing. -/
theorem C2_false_iff_backend_type_present_witness :
    (({ self := 7, block := 3,
        functions_ := [("f", [{ hueType := 1, type := 10, value := 100, owningScope := 7 }])] } :
        BlockScope).setFunctionSymbolTarget "f" 2 10 200).2 =
      { self := 7, block := 3,
        functions_ := [("f", [{ hueType := 1, type := 10, value := 100, owningScope := 7 }])] } :=
  ((C2_false_iff_backend_type_present
    { self := 7, block := 3,
      functions_ := [("f", [{ hueType := 1, type := 10, value := 100, owningScope := 7 }])] }
    "f" 2 10 200).2 (by decide)).1

/-- C3, as stated with a signature being the pair of AST and backend function
type, fails: in an empty scope the two different signatures `(1, 10)` and
`(2, 10)` are registered under `f`; the first call returns true, the second
returns false, and resolution of `f` yields one entry only. -/
theorem C3_distinct_signatures_counterexample :
    ((1, 10) : Nat × Nat) ≠ (2, 10) ∧
      (({ self := 7, block := 3, functions_ := [] } : BlockScope).overloads "f") = [] ∧
      (({ self := 7, block := 3, functions_ := [] } : BlockScope).setFunctionSymbolTarget
        "f" 1 10 100).1 = true ∧
      ((({ self := 7, block := 3, functions_ := [] } : BlockScope).setFunctionSymbolTarget
        "f" 1 10 100).2.setFunctionSymbolTarget "f" 2 10 200).1 = false ∧
      lookupFunctionSymbols
        [((({ self := 7, block := 3, functions_ := [] } : BlockScope).setFunctionSymbolTarget
          "f" 1 10 100).2.setFunctionSymbolTarget "f" 2 10 200).2] { pathname := ["f"] } =
        [{ hueType := 1, type := 10, value := 100, owningScope := 7 }] := by
  decide

/-- C3 (amended): for a scope whose overload list for `name` has no entry of
backend function type `FT1`, registering under `name` with `FT1` returns true
and registering again with `FT1` (whatever the AST type and value) returns
false; and registering next a backend function type `FT2` different from `FT1`
and not yet present returns true as well, after which `lookupFunctionSymbols`
of `name`, with that scope anywhere on the stack, contains both entries. -/
theorem C3_register_twice_and_overload (bs : BlockScope) (name : Text)
    (hue1 FT1 V1 : Nat) (h1 : ∀ e ∈ bs.overloads name, e.type ≠ FT1) :
    (bs.setFunctionSymbolTarget name hue1 FT1 V1).1 = true ∧
      (∀ hue V : Nat,
        ((bs.setFunctionSymbolTarget name hue1 FT1 V1).2.setFunctionSymbolTarget
          name hue FT1 V).1 = false) ∧
      ∀ hue2 FT2 V2 : Nat, FT2 ≠ FT1 → (∀ e ∈ bs.overloads name, e.type ≠ FT2) →
        ((bs.setFunctionSymbolTarget name hue1 FT1 V1).2.setFunctionSymbolTarget
          name hue2 FT2 V2).1 = true ∧
        ∀ (lower upper : List BlockScope) (symbol : Symbol), symbol.lookupName = name →
          ({ hueType := hue1, type := FT1, value := V1, owningScope := bs.self } :
              FunctionSymbolTarget) ∈
            lookupFunctionSymbols
              (lower ++ [((bs.setFunctionSymbolTarget name hue1 FT1 V1).2.setFunctionSymbolTarget
                name hue2 FT2 V2).2] ++ upper) symbol ∧
          ({ hueType := hue2, type := FT2, value := V2, owningScope := bs.self } :
              FunctionSymbolTarget) ∈
            lookupFunctionSymbols
              (lower ++ [((bs.setFunctionSymbolTarget name hue1 FT1 V1).2.setFunctionSymbolTarget
                name hue2 FT2 V2).2] ++ upper) symbol := by
  have ht1 : (bs.setFunctionSymbolTarget name hue1 FT1 V1).1 = true := by
    cases hb : (bs.setFunctionSymbolTarget name hue1 FT1 V1).1 with
    | true => rfl
    | false =>
      obtain ⟨e, he, het⟩ := (setFunctionSymbolTarget_fst bs name hue1 FT1 V1).1 hb
      exact absurd het (h1 e he)
  have hov1 : (bs.setFunctionSymbolTarget name hue1 FT1 V1).2.overloads name =
      bs.overloads name ++
        [{ hueType := hue1, type := FT1, value := V1, owningScope := bs.self }] := by
    unfold BlockScope.overloads
    rw [setFunctionSymbolTarget_true_overloads bs name hue1 FT1 V1 ht1]
    rfl
  refine ⟨ht1, ?_, ?_⟩
  · intro hue V
    rw [setFunctionSymbolTarget_fst, hov1]
    exact ⟨{ hueType := hue1, type := FT1, value := V1, owningScope := bs.self },
      by simp, rfl⟩
  · intro hue2 FT2 V2 hne h2
    have ht2 : ((bs.setFunctionSymbolTarget name hue1 FT1 V1).2.setFunctionSymbolTarget
        name hue2 FT2 V2).1 = true := by
      cases hb : ((bs.setFunctionSymbolTarget name hue1 FT1 V1).2.setFunctionSymbolTarget
          name hue2 FT2 V2).1 with
      | true => rfl
      | false =>
        obtain ⟨e, he, het⟩ := (setFunctionSymbolTarget_fst _ name hue2 FT2 V2).1 hb
        rw [hov1] at he
        rcases List.mem_append.1 he with he | he
        · exact absurd het (h2 e he)
        · simp only [List.mem_singleton] at he
          subst he
          exact absurd het.symm hne
    have hov2 : ((bs.setFunctionSymbolTarget name hue1 FT1 V1).2.setFunctionSymbolTarget
        name hue2 FT2 V2).2.overloads name =
        bs.overloads name ++
          [{ hueType := hue1, type := FT1, value := V1, owningScope := bs.self }] ++
          [{ hueType := hue2, type := FT2, value := V2, owningScope := bs.self }] := by
      have := setFunctionSymbolTarget_true_overloads _ name hue2 FT2 V2 ht2
      rw [hov1, (setFunctionSymbolTarget_self bs name hue1 FT1 V1).1] at this
      unfold BlockScope.overloads
      rw [this]
      rfl
    refine ⟨ht2, ?_⟩
    intro lower upper symbol hsym
    rw [lookupFunctionSymbols_append, lookupFunctionSymbols_append]
    have hone : lookupFunctionSymbols
        [((bs.setFunctionSymbolTarget name hue1 FT1 V1).2.setFunctionSymbolTarget
          name hue2 FT2 V2).2] symbol =
        bs.overloads name ++
          [{ hueType := hue1, type := FT1, value := V1, owningScope := bs.self }] ++
          [{ hueType := hue2, type := FT2, value := V2, owningScope := bs.self }] := by
      rw [lookupFunctionSymbols_eq, hsym]
      simp [hov2]
    rw [hone]
    constructor <;> simp

/-- C3 (amended), in an empty scope with backend types `10` and `11`. -/
theorem C3_register_twice_and_overload_witness :
    (({ self := 7, block := 3, functions_ := [] } : BlockScope).setFunctionSymbolTarget
        "f" 1 10 100).1 = true ∧
      ((({ self := 7, block := 3, functions_ := [] } : BlockScope).setFunctionSymbolTarget
        "f" 1 10 100).2.setFunctionSymbolTarget "f" 1 10 100).1 = false ∧
      ((({ self := 7, block := 3, functions_ := [] } : BlockScope).setFunctionSymbolTarget
        "f" 1 10 100).2.setFunctionSymbolTarget "f" 2 11 200).1 = true :=
  have h := C3_register_twice_and_overload
    { self := 7, block := 3, functions_ := [] } "f" 1 10 100 (by decide)
  ⟨h.1, h.2.1 1 100, (h.2.2 2 11 200 (by decide) (by decide)).1⟩

/-- C4: when `setFunctionSymbolTarget(name, hueT, FT, V)` returns true, the
scope's overload list for `name` is afterwards its previous list with exactly
one entry appended at the end, namely `{hueType = hueT, type = FT, value = V,
owningScope = this scope}`; earlier entries keep their order and content, and
the binding of every other name in the scope is unchanged. -/
theorem C4_true_appends_one_entry (bs : BlockScope) (name : Text) (hueT FT V : Nat)
    (h : (bs.setFunctionSymbolTarget name hueT FT V).1 = true) :
    mapFind (bs.setFunctionSymbolTarget name hueT FT V).2.functions_ name =
        some (bs.overloads name ++
          [{ hueType := hueT, type := FT, value := V, owningScope := bs.self }]) ∧
      (bs.setFunctionSymbolTarget name hueT FT V).2.overloads name =
        bs.overloads name ++
          [{ hueType := hueT, type := FT, value := V, owningScope := bs.self }] ∧
      (∀ other : Text, other ≠ name →
        mapFind (bs.setFunctionSymbolTarget name hueT FT V).2.functions_ other =
            mapFind bs.functions_ other ∧
          (bs.setFunctionSymbolTarget name hueT FT V).2.overloads other =
            bs.overloads other) ∧
      (bs.setFunctionSymbolTarget name hueT FT V).2.self = bs.self := by
  have hm := setFunctionSymbolTarget_true_overloads bs name hueT FT V h
  refine ⟨hm, ?_, ?_, (setFunctionSymbolTarget_self bs name hueT FT V).1⟩
  · unfold BlockScope.overloads at hm ⊢
    rw [hm]
    rfl
  · intro other hne
    have ho := setFunctionSymbolTarget_other bs name other hueT FT V hne
    refine ⟨ho, ?_⟩
    unfold BlockScope.overloads
    rw [ho]

/-- C4, at a scope holding `f` with backend type `10` and `g` with backend type
`20`: registering `f` with backend type `11` appends to the list of `f`. -/
theorem C4_true_appends_one_entry_witness :
    (({ self := 7, block := 3,
        functions_ := [("f", [{ hueType := 1, type := 10, value := 100, owningScope := 7 }]),
          ("g", [{ hueType := 5, type := 20, value := 300, owningScope := 7 }])] } :
        BlockScope).setFunctionSymbolTarget "f" 2 11 200).2.overloads "f" =
      [{ hueType := 1, type := 10, value := 100, owningScope := 7 },
        { hueType := 2, type := 11, value := 200, owningScope := 7 }] :=
  (C4_true_appends_one_entry
    { self := 7, block := 3,
      functions_ := [("f", [{ hueType := 1, type := 10, value := 100, owningScope := 7 }]),
        ("g", [{ hueType := 5, type := 20, value := 300, owningScope := 7 }])] }
    "f" 2 11 200 (by decide)).2.1

/-! ### Decimal rendering -/

theorem toDigitsCore_acc (f n : Nat) (ds : List Char) :
    Nat.toDigitsCore 10 f n ds = Nat.toDigitsCore 10 f n [] ++ ds := by
  induction f generalizing n ds with
  | zero => simp [Nat.toDigitsCore]
  | succ f ih =>
    simp only [Nat.toDigitsCore]
    by_cases h : n / 10 = 0
    · simp [h]
    · simp only [h, if_false]
      rw [ih (n / 10) (Nat.digitChar (n % 10) :: ds), ih (n / 10) [Nat.digitChar (n % 10)]]
      simp

theorem toDigitsCore_fuel (f g n : Nat) (hf : n < f) (hg : n < g) :
    Nat.toDigitsCore 10 f n [] = Nat.toDigitsCore 10 g n [] := by
  induction f generalizing n g with
  | zero => omega
  | succ f ih =>
    cases g with
    | zero => omega
    | succ g =>
      simp only [Nat.toDigitsCore]
      by_cases h : n / 10 = 0
      · simp [h]
      · simp only [h, if_false]
        rw [toDigitsCore_acc f, toDigitsCore_acc g]
        rw [ih g (n / 10) (by omega) (by omega)]

theorem toDigits_of_lt_ten (n : Nat) (h : n < 10) :
    Nat.toDigits 10 n = [Nat.digitChar n] := by
  have h0 : n / 10 = 0 := by omega
  have h1 : n % 10 = n := by omega
  simp [Nat.toDigits, Nat.toDigitsCore, h0, h1]

theorem toDigits_step (n : Nat) (h : 10 ≤ n) :
    Nat.toDigits 10 n = Nat.toDigits 10 (n / 10) ++ [Nat.digitChar (n % 10)] := by
  have h0 : ¬ n / 10 = 0 := by omega
  have hn : Nat.toDigits 10 n =
      Nat.toDigitsCore 10 n (n / 10) [Nat.digitChar (n % 10)] := by
    simp [Nat.toDigits, Nat.toDigitsCore, h0]
  rw [hn, toDigitsCore_acc, toDigitsCore_fuel n (n / 10 + 1) (n / 10) (by omega) (by omega)]
  rfl

theorem toDigits_length (k n : Nat) (hlo : 10 ^ k ≤ n) (hhi : n < 10 ^ (k + 1)) :
    (Nat.toDigits 10 n).length = k + 1 := by
  induction k generalizing n with
  | zero =>
    rw [toDigits_of_lt_ten n (by simpa using hhi)]
    rfl
  | succ k ih =>
    have h10 : 10 ≤ n := by
      have : 10 ^ 1 ≤ 10 ^ (k + 1) := Nat.pow_le_pow_right (by decide) (by omega)
      omega
    rw [toDigits_step n h10, List.length_append, ih (n / 10)]
    · rfl
    · rw [Nat.le_div_iff_mul_le (by decide)]
      rw [pow_succ] at hlo
      exact hlo
    · rw [Nat.div_lt_iff_lt_mul (by decide)]
      rw [pow_succ] at hhi
      exact hhi

theorem toDigits_length_le (n : Nat) (h : n < 10 ^ 9) :
    (Nat.toDigits 10 n).length ≤ 9 :=
  Nat.toDigitsCore_length 10 (by decide) (n + 1) n 9 h (by decide)

/-- Below `10 ^ 9` the buffer holds the whole suffix. -/
theorem snprintfSuffix_of_lt (i : Nat) (h : i < 10 ^ 9) :
    snprintfSuffix i = ['_', '_'] ++ Nat.toDigits 10 i := by
  unfold snprintfSuffix
  apply List.take_of_length_le
  have := toDigits_length_le i h
  simp only [List.length_append, List.length_cons, List.length_nil]
  omega

/-- From `10 ^ 9` on the last digit does not fit: the buffer holds the suffix of
the counter divided by ten. -/
theorem snprintfSuffix_truncated (i : Nat) (hlo : 10 ^ 9 ≤ i) (hhi : i < 10 ^ 10) :
    snprintfSuffix i = snprintfSuffix (i / 10) := by
  have hlen : (Nat.toDigits 10 (i / 10)).length = 9 :=
    toDigits_length 8 (i / 10) (by omega) (by omega)
  rw [snprintfSuffix_of_lt (i / 10) (by omega)]
  unfold snprintfSuffix
  rw [toDigits_step i (by omega), ← List.append_assoc]
  apply List.take_left'
  simp only [List.length_append, List.length_cons, List.length_nil, hlen]

/-! ### The uniquing loop -/

/-- The exit test of the loop: the name is neither a named value nor a named
global. -/
theorem exitTest_iff (module_ : Module) (mname : StdString) :
    (module_.getNamedValueIsNull mname && module_.getNamedGlobalIsNull mname) = true ↔
      mname ∉ module_.namedValues ∧ mname ∉ module_.namedGlobals := by
  simp [Module.getNamedValueIsNull, Module.getNamedGlobalIsNull]

/-- The loop returns the first candidate, from the counter on, that passes the
exit test, when the counter reaches it within the range of `int`. -/
theorem uniqueMangledNameLoop_first_free (mangledName : StdString → StdString)
    (module_ : Module) (utf8name : StdString) (fuel i k : Nat) (hik : i ≤ k)
    (hk : k < i + fuel)
    (hfree : (module_.getNamedValueIsNull (candidateName mangledName utf8name k) &&
      module_.getNamedGlobalIsNull (candidateName mangledName utf8name k)) = true)
    (hprev : ∀ j, i ≤ j → j < k →
      (module_.getNamedValueIsNull (candidateName mangledName utf8name j) &&
        module_.getNamedGlobalIsNull (candidateName mangledName utf8name j)) = false) :
    uniqueMangledNameLoop mangledName module_ utf8name fuel i =
      some (candidateName mangledName utf8name k) := by
  induction fuel generalizing i with
  | zero => omega
  | succ fuel ih =>
    simp only [uniqueMangledNameLoop]
    by_cases hi : i = k
    · subst hi
      simp [hfree]
    · have hlt : i < k := by omega
      rw [hprev i (Nat.le_refl i) hlt]
      simp only [Bool.false_eq_true, if_false]
      exact ih (i + 1) (by omega) (by omega) (fun j h1 h2 => hprev j (by omega) h2)

/-- The loop returns no name when every candidate up to the end of the range of
the counter fails the exit test. -/
theorem uniqueMangledNameLoop_none (mangledName : StdString → StdString)
    (module_ : Module) (utf8name : StdString) (fuel i : Nat)
    (hall : ∀ j, i ≤ j → j < i + fuel →
      (module_.getNamedValueIsNull (candidateName mangledName utf8name j) &&
        module_.getNamedGlobalIsNull (candidateName mangledName utf8name j)) = false) :
    uniqueMangledNameLoop mangledName module_ utf8name fuel i = none := by
  induction fuel generalizing i with
  | zero => rfl
  | succ fuel ih =>
    simp only [uniqueMangledNameLoop]
    rw [hall i (Nat.le_refl i) (by omega)]
    simp only [Bool.false_eq_true, if_false]
    exact ih (i + 1) (fun j h1 h2 => hall j (by omega) (by omega))

/-- A name the loop returns passes the exit test. -/
theorem uniqueMangledNameLoop_some (mangledName : StdString → StdString)
    (module_ : Module) (utf8name : StdString) (fuel i : Nat) (r : StdString)
    (h : uniqueMangledNameLoop mangledName module_ utf8name fuel i = some r) :
    r ∉ module_.namedValues ∧ r ∉ module_.namedGlobals := by
  induction fuel generalizing i with
  | zero => simp [uniqueMangledNameLoop] at h
  | succ fuel ih =>
    simp only [uniqueMangledNameLoop] at h
    split at h
    · rename_i hc
      have hr : candidateName mangledName utf8name i = r := by simpa using h
      rw [← hr]
      exact (exitTest_iff _ _).1 hc
    · exact ih (i + 1) h

/-- The named values of the saturated module are the candidates of the counters
below `10 ^ 9`. -/
theorem mem_saturated_iff (mangledName : StdString → StdString) (utf8name x : StdString) :
    x ∈ (saturatedModule mangledName utf8name).namedValues ↔
      ∃ j, j < 10 ^ 9 ∧ candidateName mangledName utf8name j = x := by
  simp [saturatedModule]

/-- Every name the loop can try, over the whole range of the counter, is a named
value of the saturated module. -/
theorem candidateName_mem_saturated (mangledName : StdString → StdString)
    (utf8name : StdString) (j : Nat) (hj : j ≤ INT_MAX) :
    candidateName mangledName utf8name j ∈
      (saturatedModule mangledName utf8name).namedValues := by
  unfold saturatedModule
  simp only [List.mem_map, List.mem_range]
  unfold INT_MAX at hj
  by_cases hlt : j < 10 ^ 9
  · exact ⟨j, hlt, rfl⟩
  · refine ⟨j / 10, by omega, ?_⟩
    have h1 : j / 10 > 0 := by omega
    have h2 : j > 0 := by omega
    unfold candidateName
    rw [if_pos h1, if_pos h2, snprintfSuffix_truncated j (by omega) (by omega)]

/-- On the saturated module the loop runs through the whole range of the counter
and returns no name. -/
theorem uniqueMangledName_saturated (mangledName : StdString → StdString) (name : Text) :
    uniqueMangledName mangledName (saturatedModule mangledName name.UTF8String) name =
      none := by
  unfold uniqueMangledName
  apply uniqueMangledNameLoop_none
  intro j _ hj
  have hmem := candidateName_mem_saturated mangledName name.UTF8String j (by omega)
  cases hc : ((saturatedModule mangledName name.UTF8String).getNamedValueIsNull
      (candidateName mangledName name.UTF8String j) &&
    (saturatedModule mangledName name.UTF8String).getNamedGlobalIsNull
      (candidateName mangledName name.UTF8String j)) with
  | false => rfl
  | true => exact absurd hmem ((exitTest_iff _ _).1 hc).1

/-- Below the limit of the buffer the function does what its comment says: with
`k < 10 ^ 9` the least counter whose candidate is neither a named value nor a
named global, it returns the mangled base name for `k = 0` and the mangled name
with the suffix `__k` otherwise. -/
theorem uniqueMangledName_least_below_limit (mangledName : StdString → StdString)
    (module_ : Module) (name : Text) (k : Nat) (hk : k < 10 ^ 9)
    (hfree : suffixedName mangledName name.UTF8String k ∉ module_.namedValues ∧
      suffixedName mangledName name.UTF8String k ∉ module_.namedGlobals)
    (hprev : ∀ j, j < k → ¬ (suffixedName mangledName name.UTF8String j ∉ module_.namedValues ∧
      suffixedName mangledName name.UTF8String j ∉ module_.namedGlobals)) :
    uniqueMangledName mangledName module_ name =
      some (suffixedName mangledName name.UTF8String k) := by
  have hc : ∀ j, j < 10 ^ 9 → candidateName mangledName name.UTF8String j =
      suffixedName mangledName name.UTF8String j := by
    intro j hj
    unfold candidateName suffixedName
    by_cases h0 : j > 0
    · rw [if_pos h0, if_pos h0, snprintfSuffix_of_lt j hj]
    · rw [if_neg h0, if_neg h0]
  unfold uniqueMangledName
  rw [← hc k hk]
  apply uniqueMangledNameLoop_first_free _ _ _ _ 0 k (Nat.zero_le k)
  · unfold INT_MAX; omega
  · rw [hc k hk]; exact (exitTest_iff _ _).2 hfree
  · intro j _ hj
    have := hprev j hj
    rw [← hc j (by omega), ← exitTest_iff] at this
    simpa using this

/-! ### Claims on name uniquing -/

/-- C5, evaluated where the code departs from it: in the module whose named
values are `f`, `f__1`, ..., `f__999999999` (with the identity for `mangledName`)
the base name collides, `f__1000000000` is the suffixed name of least counter
that is neither a named value nor a named global, and `uniqueMangledName` does
not return it: the 12-byte buffer cuts the suffix of every counter from `10 ^ 9`
on to a name already tried, and the loop runs to the end of the range of `int i`
without a result. -/
theorem C5_least_free_suffix_beyond_buffer :
    suffixedName id (Text.UTF8String "f") 0 ∈
        (saturatedModule id (Text.UTF8String "f")).namedValues ∧
      (∀ i, 1 ≤ i → i < 10 ^ 9 →
        suffixedName id (Text.UTF8String "f") i ∈
          (saturatedModule id (Text.UTF8String "f")).namedValues) ∧
      suffixedName id (Text.UTF8String "f") 1000000000 = "f__1000000000".toList ∧
      suffixedName id (Text.UTF8String "f") 1000000000 ∉
        (saturatedModule id (Text.UTF8String "f")).namedValues ∧
      suffixedName id (Text.UTF8String "f") 1000000000 ∉
        (saturatedModule id (Text.UTF8String "f")).namedGlobals ∧
      uniqueMangledName id (saturatedModule id (Text.UTF8String "f")) "f" ≠
        some (suffixedName id (Text.UTF8String "f") 1000000000) ∧
      uniqueMangledName id (saturatedModule id (Text.UTF8String "f")) "f" = none := by
  have hcs : ∀ j, j < 10 ^ 9 → candidateName id (Text.UTF8String "f") j =
      suffixedName id (Text.UTF8String "f") j := by
    intro j hj
    unfold candidateName suffixedName
    by_cases h0 : j > 0
    · rw [if_pos h0, if_pos h0, snprintfSuffix_of_lt j hj]
    · rw [if_neg h0, if_neg h0]
  have hmem : ∀ i, i < 10 ^ 9 → suffixedName id (Text.UTF8String "f") i ∈
      (saturatedModule id (Text.UTF8String "f")).namedValues := by
    intro i hi
    rw [← hcs i hi]
    exact candidateName_mem_saturated id _ i (by unfold INT_MAX; omega)
  have hname : suffixedName id (Text.UTF8String "f") 1000000000 = "f__1000000000".toList := by
    have hd : Nat.toDigits 10 1000000000 = "1000000000".toList := by decide
    unfold suffixedName
    rw [if_pos (by decide), hd]
    rfl
  have hnone := uniqueMangledName_saturated id ("f" : Text)
  refine ⟨hmem 0 (by norm_num), fun i _ hi => hmem i hi, hname, ?_, ?_, ?_, hnone⟩
  · intro hin
    obtain ⟨j, _, hj⟩ := (mem_saturated_iff id _ _).1 hin
    have hlen := congrArg List.length hj
    rw [hname] at hlen
    unfold candidateName at hlen
    have hsuf : (snprintfSuffix j).length ≤ 11 := by
      unfold snprintfSuffix
      exact List.length_take_le 11 _
    split at hlen
    · simp only [id, List.length_append] at hlen
      have h1 : (Text.UTF8String "f").length = 1 := by decide
      have h2 : "f__1000000000".toList.length = 13 := by decide
      omega
    · have h1 : (id (Text.UTF8String "f")).length = 1 := by decide
      have h2 : "f__1000000000".toList.length = 13 := by decide
      omega
  · simp [saturatedModule]
  · rw [hnone]
    simp

/-- C6, evaluated where the code departs from it: for every base name (and every
`mangledName`), in the module whose `10 ^ 9` named values are the names the loop
tries for the counters `0 .. 10 ^ 9 - 1`, `uniqueMangledName` returns no name.
The suffix written for the counter `10 ^ 9` is cut by the 12-byte buffer to that
of the counter `10 ^ 8`, likewise for every later counter, and `int i` reaches
`INT_MAX` with every candidate colliding. -/
theorem C6_no_name_when_all_candidates_registered (mangledName : StdString → StdString)
    (name : Text) :
    (saturatedModule mangledName name.UTF8String).namedValues.length = 10 ^ 9 ∧
      snprintfSuffix 1000000000 = snprintfSuffix 100000000 ∧
      (∀ i, i ≤ INT_MAX →
        candidateName mangledName name.UTF8String i ∈
          (saturatedModule mangledName name.UTF8String).namedValues) ∧
      uniqueMangledName mangledName (saturatedModule mangledName name.UTF8String) name =
        none := by
  refine ⟨?_, by decide, fun i hi => candidateName_mem_saturated _ _ i hi,
    uniqueMangledName_saturated mangledName name⟩
  simp [saturatedModule]

/-! ### The block loop -/

/-- The loop hands expressions to `codegen` in list order: what it has generated
when it ends is what was generated before followed by a prefix of the remaining
expressions. -/
theorem codegenBlockLoop_generated {σ Expr : Type} (cg : Codegen σ Expr) (es : List Expr)
    (v : Value) (st : σ) (gen : List Expr) :
    ∃ n, n ≤ es.length ∧ (codegenBlockLoop cg es v st gen).2.generated = gen ++ es.take n := by
  induction es generalizing v st gen with
  | nil => exact ⟨0, by simp, by simp [codegenBlockLoop]⟩
  | cons e rest ih =>
    simp only [codegenBlockLoop]
    split
    · exact ⟨1, by simp, by simp⟩
    · obtain ⟨n, hn, hgen⟩ := ih (cg.codegen e st).1 (cg.codegen e st).2 (gen ++ [e])
      exact ⟨n + 1, by simpa using hn, by simp [hgen]⟩

/-- When every child succeeds the loop runs to completion, generates every
expression, and ends with the value and state of the last child (the initial
ones when there is no child). -/
theorem codegenBlockLoop_all_succeed {σ Expr : Type} (cg : Codegen σ Expr) (es : List Expr)
    (v : Value) (st : σ) (gen : List Expr)
    (hall : ∀ r ∈ childRuns cg es st, r.1 ≠ 0) :
    codegenBlockLoop cg es v st gen =
      (false, ⟨((childRuns cg es st).getLast?.getD (v, st)).1,
        ((childRuns cg es st).getLast?.getD (v, st)).2, gen ++ es⟩) := by
  induction es generalizing v st gen with
  | nil => simp [codegenBlockLoop, childRuns]
  | cons e rest ih =>
    have he : (cg.codegen e st).1 ≠ 0 := hall _ (by simp [childRuns])
    have hrest : ∀ r ∈ childRuns cg rest (cg.codegen e st).2, r.1 ≠ 0 :=
      fun r hr => hall r (by simp [childRuns, hr])
    simp only [codegenBlockLoop, he, if_false]
    rw [ih (cg.codegen e st).1 (cg.codegen e st).2 (gen ++ [e]) hrest]
    simp only [childRuns, List.getLast?_cons, List.append_assoc, List.singleton_append]
    cases childRuns cg rest (cg.codegen e st).2 with
    | nil => simp
    | cons r rs => simp [List.getLast?_cons_cons]

/-- When the child at index `k` is the first to fail, the loop leaves through
`return 0` after generating the children up to and including that one, in the
state the failing child left. -/
theorem codegenBlockLoop_first_failure {σ Expr : Type} (cg : Codegen σ Expr)
    (es : List Expr) (v : Value) (st : σ) (gen : List Expr) (k : Nat) (s1 : σ)
    (hk : (childRuns cg es st)[k]? = some (0, s1))
    (hprev : ∀ j, j < k → ∀ r, (childRuns cg es st)[j]? = some r → r.1 ≠ 0) :
    codegenBlockLoop cg es v st gen = (true, ⟨0, s1, gen ++ es.take (k + 1)⟩) := by
  induction es generalizing v st gen k with
  | nil => simp [childRuns] at hk
  | cons e rest ih =>
    cases k with
    | zero =>
      simp only [childRuns, List.getElem?_cons_zero, Option.some.injEq] at hk
      simp [codegenBlockLoop, hk]
    | succ k =>
      have he : (cg.codegen e st).1 ≠ 0 :=
        hprev 0 (Nat.succ_pos k) _ (by simp [childRuns])
      simp only [childRuns, List.getElem?_cons_succ] at hk
      simp only [codegenBlockLoop, he, if_false]
      rw [ih (cg.codegen e st).1 (cg.codegen e st).2 (gen ++ [e]) k hk
        (fun j hj r hr => hprev (j + 1) (by omega) r (by simpa [childRuns] using hr))]
      simp

/-! ### Claims on blocks -/

/-- C7: `codegenBlock` generates the child expressions in list order (what it
generates is a prefix of the block's list); if the block has at least one
expression and every child generation succeeds, every child is generated and the
result is the value produced for the last child; if the block has no expression,
the result is the failure sentinel produced by `error("Empty block")` and no
child is generated. -/
theorem C7_codegenBlock_last_value_or_empty {σ Expr : Type} (cg : Codegen σ Expr)
    (block : Block Expr) (st : σ) :
    (∃ n, n ≤ block.expressions.length ∧
        (codegenBlock cg block st).generated = block.expressions.take n) ∧
      (block.expressions ≠ [] → (∀ r ∈ childRuns cg block.expressions st, r.1 ≠ 0) →
        ∃ last, (childRuns cg block.expressions st).getLast? = some last ∧
          (codegenBlock cg block st).value = last.1 ∧
          (codegenBlock cg block st).value ≠ 0 ∧
          (codegenBlock cg block st).state = last.2 ∧
          (codegenBlock cg block st).generated = block.expressions) ∧
      (block.expressions = [] →
        (codegenBlock cg block st).value = (cg.error "Empty block" st).1 ∧
          (codegenBlock cg block st).value = 0 ∧
          (codegenBlock cg block st).state = (cg.error "Empty block" st).2 ∧
          (codegenBlock cg block st).generated = []) := by
  refine ⟨?_, ?_, ?_⟩
  · obtain ⟨n, hn, hgen⟩ := codegenBlockLoop_generated cg block.expressions 0 st []
    refine ⟨n, hn, ?_⟩
    unfold codegenBlock
    rw [List.nil_append] at hgen
    split
    · rename_i run heq
      rw [heq] at hgen
      exact hgen
    · rename_i run heq
      rw [heq] at hgen
      split
      · exact hgen
      · exact hgen
  · intro hne hall
    have hloop := codegenBlockLoop_all_succeed cg block.expressions 0 st [] hall
    have hlen : (childRuns cg block.expressions st) ≠ [] := by
      cases hes : block.expressions with
      | nil => exact absurd hes hne
      | cons e rest => simp [childRuns]
    obtain ⟨last, hlast⟩ : ∃ last, (childRuns cg block.expressions st).getLast? = some last := by
      cases hg : (childRuns cg block.expressions st).getLast? with
      | none => exact absurd (List.getLast?_eq_none_iff.1 hg) hlen
      | some last => exact ⟨last, rfl⟩
    have hlast0 : last.1 ≠ 0 := hall last (List.mem_of_getLast?_eq_some hlast)
    rw [hlast] at hloop
    simp only [Option.getD_some, List.nil_append] at hloop
    refine ⟨last, hlast, ?_⟩
    unfold codegenBlock
    rw [hloop]
    simp [hlast0]
  · intro hnil
    unfold codegenBlock
    rw [hnil]
    simp [codegenBlockLoop, Codegen.error]

/-- C7, on a block of three expressions where `codegen` returns the expression
itself as value and logs it in the state: the block's value is the last one. -/
theorem C7_codegenBlock_last_value_or_empty_witness :
    (codegenBlock
        ({ codegen := fun e st => (e, st ++ [e]), report := fun _ st => st ++ [99] } :
          Codegen (List Nat) Nat)
        { expressions := [4, 5, 6] } []).value = 6 ∧
      (codegenBlock
        ({ codegen := fun e st => (e, st ++ [e]), report := fun _ st => st ++ [99] } :
          Codegen (List Nat) Nat)
        { expressions := [4, 5, 6] } []).generated = [4, 5, 6] := by
  obtain ⟨last, hlast, hv, _, _, hg⟩ :=
    (C7_codegenBlock_last_value_or_empty
      ({ codegen := fun e st => (e, st ++ [e]), report := fun _ st => st ++ [99] } :
        Codegen (List Nat) Nat)
      { expressions := [4, 5, 6] } []).2.1 (by decide) (by decide)
  have hl : last = (6, [4, 5, 6]) := by
    have h2 : (childRuns
        ({ codegen := fun e st => (e, st ++ [e]), report := fun _ st => st ++ [99] } :
          Codegen (List Nat) Nat) [4, 5, 6] []).getLast? = some (6, [4, 5, 6]) := by decide
    rw [h2] at hlast
    exact (Option.some.inj hlast).symm
  rw [hl] at hv
  exact ⟨hv, hg⟩

/-- C8: for a block in which the child at index `k` (the `k + 1`-th child) is the
first whose generation returns the null sentinel, `codegenBlock` returns the
null sentinel, the children generated are exactly the first `k + 1` in order,
none after it is generated, and the state is the one the failing child left
(no further step, `error` included, is taken). -/
theorem C8_codegenBlock_fail_fast {σ Expr : Type} (cg : Codegen σ Expr)
    (block : Block Expr) (st : σ) (k : Nat) (s1 : σ)
    (hk : (childRuns cg block.expressions st)[k]? = some (0, s1))
    (hprev : ∀ j, j < k → ∀ r, (childRuns cg block.expressions st)[j]? = some r → r.1 ≠ 0) :
    (codegenBlock cg block st).value = 0 ∧
      (codegenBlock cg block st).generated = block.expressions.take (k + 1) ∧
      (codegenBlock cg block st).generated.length = k + 1 ∧
      (codegenBlock cg block st).state = s1 := by
  have hloop := codegenBlockLoop_first_failure cg block.expressions 0 st [] k s1 hk hprev
  have hlen : k < block.expressions.length := by
    have h1 : k < (childRuns cg block.expressions st).length := by
      by_contra hge
      rw [List.getElem?_eq_none (by omega)] at hk
      exact absurd hk (by simp)
    have h2 : ∀ (es : List Expr) (s : σ), (childRuns cg es s).length = es.length := by
      intro es
      induction es with
      | nil => intro s; rfl
      | cons e rest ih => intro s; simp [childRuns, ih]
    rw [h2] at h1
    exact h1
  unfold codegenBlock
  rw [hloop]
  refine ⟨rfl, by simp, ?_, rfl⟩
  simp only [List.nil_append, List.length_take]
  omega

/-- C8, on a block of four expressions whose third child fails: the first three
children are generated, the fourth is not. -/
theorem C8_codegenBlock_fail_fast_witness :
    (codegenBlock
        ({ codegen := fun e st => (e, st ++ [e]), report := fun _ st => st ++ [99] } :
          Codegen (List Nat) Nat)
        { expressions := [4, 5, 0, 6] } []).value = 0 ∧
      (codegenBlock
        ({ codegen := fun e st => (e, st ++ [e]), report := fun _ st => st ++ [99] } :
          Codegen (List Nat) Nat)
        { expressions := [4, 5, 0, 6] } []).generated = [4, 5, 0] :=
  have h := C8_codegenBlock_fail_fast
    ({ codegen := fun e st => (e, st ++ [e]), report := fun _ st => st ++ [99] } :
      Codegen (List Nat) Nat)
    { expressions := [4, 5, 0, 6] } [] 2 [4, 5, 0] (by decide) (by decide)
  ⟨h.1, h.2.1⟩

/-! ### Claims on calls -/

/-- C9: `Call::resultType` returns the bound callee's result type when a callee
is bound, and the call's own result type when no callee is bound; that own type
is `Unknown` for a newly constructed call. -/
theorem C9_resultType_defers_to_callee (c : Call) (store : FunctionStore) :
    (∀ F, c.callee_ = some F → c.resultType store = (store F).resultType) ∧
      (c.callee_ = none → c.resultType store = c.resultType_) ∧
      (∀ (calleeName : Text) (args : List Nat),
        (Call.new calleeName args).callee_ = none ∧
          (Call.new calleeName args).resultType store = ASTType.Unknown) := by
  refine ⟨fun F h => ?_, fun h => ?_, fun calleeName args => ⟨rfl, rfl⟩⟩
  · simp [Call.resultType, h]
  · simp [Call.resultType, h]

/-- C9, on a call bound to the function at address `5`, whose result type is the
concrete type `3`. -/
theorem C9_resultType_defers_to_callee_witness :
    ((Call.new "f" []).setCallee (some 5)).resultType
        (fun a => if a = 5 then { resultType_ := .Concrete 3 } else { resultType_ := .Unknown }) =
      ASTType.Concrete 3 :=
  (C9_resultType_defers_to_callee ((Call.new "f" []).setCallee (some 5))
    (fun a => if a = 5 then { resultType_ := .Concrete 3 } else { resultType_ := .Unknown })).1
    5 rfl

/-- C10: for a call bound to a callee whose result type is `Unknown` and a
concrete type `T`, `setResultType(T)` is carried out, afterwards the callee's
result type is `T`, and `call.resultType()` and `callee.resultType()` both
return `T`; the call node itself and every other function are as before. -/
theorem C10_setResultType_propagates_to_callee (c : Call) (store : FunctionStore)
    (F : Nat) (T : ASTType) (hb : c.callee_ = some F)
    (hu : (store F).resultType = ASTType.Unknown) (hT : T.isUnknown = false) :
    ∃ store1, c.setResultType T store = some (c, store1) ∧
      (store1 F).resultType = T ∧
      c.resultType store1 = T ∧
      c.resultType store1 = (store1 F).resultType ∧
      ∀ G, G ≠ F → store1 G = store G := by
  refine ⟨Function.update store F ((store F).setResultType T), ?_, ?_, ?_, ?_, ?_⟩
  · unfold Call.setResultType
    rw [hT, hb]
    simp [hu, ASTType.isUnknown]
  · simp [Function.setResultType, Function.resultType]
  · simp [Call.resultType, hb, Function.setResultType, Function.resultType]
  · simp [Call.resultType, hb]
  · intro G hG
    exact Function.update_noteq hG _ _

/-- C10, on a call bound to the function at address `5`, whose result type is
unknown, with the concrete type `3`. -/
theorem C10_setResultType_propagates_to_callee_witness :
    ∃ store1,
      ((Call.new "f" []).setCallee (some 5)).setResultType (.Concrete 3)
          (fun _ => { resultType_ := .Unknown }) =
        some ((Call.new "f" []).setCallee (some 5), store1) ∧
      (store1 5).resultType = ASTType.Concrete 3 ∧
      ((Call.new "f" []).setCallee (some 5)).resultType store1 = ASTType.Concrete 3 :=
  have h := C10_setResultType_propagates_to_callee ((Call.new "f" []).setCallee (some 5))
    (fun _ => { resultType_ := .Unknown }) 5 (.Concrete 3) rfl rfl rfl
  h.elim fun store1 hs => ⟨store1, hs.1, hs.2.1, hs.2.2.1⟩

/-! ### Result-type updates through a call -/

/-- An accepted `setResultType` was given a concrete type and returns the call
node as it was. -/
theorem setResultType_some (c : Call) (T : ASTType) (store : FunctionStore)
    (c1 : Call) (store1 : FunctionStore) (h : c.setResultType T store = some (c1, store1)) :
    T.isUnknown = false ∧ c1 = c := by
  unfold Call.setResultType at h
  cases hT : T.isUnknown with
  | true => simp [hT] at h
  | false =>
    refine ⟨rfl, ?_⟩
    simp only [hT, Bool.false_eq_true, if_false] at h
    cases hc : c.callee_ with
    | none =>
      simp only [hc, Option.some.injEq, Prod.mk.injEq] at h
      exact h.1.symm
    | some F =>
      simp only [hc] at h
      split at h
      · simp only [Option.some.injEq, Prod.mk.injEq] at h
        exact h.1.symm
      · simp only [Option.some.injEq, Prod.mk.injEq] at h
        exact h.1.symm

/-- What a call bound to `F` reads after an accepted `setResultType(T)`: `T`
when the callee's type was unknown, the callee's previous type otherwise. -/
theorem setResultType_bound_read (c : Call) (T : ASTType) (store : FunctionStore) (F : Nat)
    (c1 : Call) (store1 : FunctionStore) (hb : c.callee_ = some F)
    (h : c.setResultType T store = some (c1, store1)) :
    c1.resultType store1 =
      if (store F).resultType.isUnknown then T else (store F).resultType := by
  have hT := (setResultType_some c T store c1 store1 h).1
  unfold Call.setResultType at h
  simp only [hT, Bool.false_eq_true, if_false, hb] at h
  split at h
  · rename_i hu
    simp only [Option.some.injEq, Prod.mk.injEq] at h
    rw [← h.1, ← h.2, if_pos hu]
    simp [Call.resultType, hb, Function.setResultType, Function.resultType]
  · rename_i hu
    simp only [Option.some.injEq, Prod.mk.injEq] at h
    rw [← h.1, ← h.2, if_neg hu]
    simp [Call.resultType, hb]

/-- A type is `Unknown` exactly when `isUnknown` holds. -/
theorem isUnknown_iff (T : ASTType) : T.isUnknown = true ↔ T = ASTType.Unknown := by
  cases T <;> simp [ASTType.isUnknown]

/-- From a state in which a bound call reads a concrete type, every accepted run
of `setResultType` calls leaves what it reads unchanged. -/
theorem setResultTypes_concrete_stays (c : Call) (store : FunctionStore) (F : Nat)
    (Ts : List ASTType) (c1 : Call) (store1 : FunctionStore) (hb : c.callee_ = some F)
    (hc : c.resultType store ≠ ASTType.Unknown)
    (h : c.setResultTypes store Ts = some (c1, store1)) :
    c1.resultType store1 = c.resultType store := by
  induction Ts generalizing c store with
  | nil =>
    simp only [Call.setResultTypes, Option.some.injEq, Prod.mk.injEq] at h
    rw [← h.1, ← h.2]
  | cons T rest ih =>
    simp only [Call.setResultTypes] at h
    cases hs : c.setResultType T store with
    | none => simp [hs] at h
    | some r =>
      obtain ⟨c2, store2⟩ := r
      simp only [hs] at h
      have hc2 : c2 = c := (setResultType_some c T store c2 store2 hs).2
      have hread := setResultType_bound_read c T store F c2 store2 hb hs
      have hstore : (store F).resultType = c.resultType store := by
        simp [Call.resultType, hb]
      have hnu : (store F).resultType.isUnknown = false := by
        cases hx : (store F).resultType.isUnknown with
        | false => rfl
        | true =>
          rw [isUnknown_iff, hstore] at hx
          exact absurd hx hc
      rw [hnu] at hread
      simp only [Bool.false_eq_true, if_false] at hread
      rw [hstore] at hread
      have := ih c2 store2 (by rw [hc2]; exact hb) (by rw [hread]; exact hc) h
      rw [this, hread]

/-! ### Further claims on calls -/

/-- C11: for every call, with or without a bound callee and whatever the
callee's result type, `setResultType(T)` with `T` the `Unknown` type fails its
assertion: no updated call or function store results, so neither the call's nor
the callee's result type changes. -/
theorem C11_setResultType_unknown_rejected (c : Call) (store : FunctionStore) :
    c.setResultType ASTType.Unknown store = none ∧
      (∀ r, c.setResultType ASTType.Unknown store ≠ some r) ∧
      ∀ Ts, c.setResultTypes store (ASTType.Unknown :: Ts) = none := by
  have h : c.setResultType ASTType.Unknown store = none := by
    simp [Call.setResultType, ASTType.isUnknown]
  refine ⟨h, ?_, ?_⟩
  · intro r
    rw [h]
    simp
  · intro Ts
    simp [Call.setResultTypes, h]

/-- C12: for a call with a bound callee, after any accepted `setResultType(T)`
the call's result type is not `Unknown`; and once the call's result type is
concrete it is concrete (the same type, in fact) after every accepted run of
later `setResultType` calls. -/
theorem C12_resultType_never_reverts (c : Call) (store : FunctionStore) (F : Nat)
    (hb : c.callee_ = some F) :
    (∀ T c1 store1, c.setResultType T store = some (c1, store1) →
        c1.resultType store1 ≠ ASTType.Unknown) ∧
      (∀ Ts c1 store1, c.resultType store ≠ ASTType.Unknown →
        c.setResultTypes store Ts = some (c1, store1) →
          c1.resultType store1 ≠ ASTType.Unknown ∧
            c1.resultType store1 = c.resultType store) := by
  refine ⟨?_, ?_⟩
  · intro T c1 store1 h
    have hT := (setResultType_some c T store c1 store1 h).1
    rw [setResultType_bound_read c T store F c1 store1 hb h]
    split
    · intro hx
      rw [← isUnknown_iff, hT] at hx
      exact absurd hx (by simp)
    · rename_i hu
      intro hx
      rw [← isUnknown_iff] at hx
      exact hu hx
  · intro Ts c1 store1 hc h
    have := setResultTypes_concrete_stays c store F Ts c1 store1 hb hc h
    exact ⟨by rw [this]; exact hc, this⟩

/-- C12, on a call bound to the function at address `5` with unknown result
type: after `setResultType` with the concrete type `3` the call does not read
`Unknown`. -/
theorem C12_resultType_never_reverts_witness :
    ((Call.new "f" []).setCallee (some 5)).callee_ = some 5 ∧
      ((Call.new "f" []).setCallee (some 5)).resultType
          (Function.update (fun _ => { resultType_ := .Unknown }) 5
            { resultType_ := .Concrete 3 }) ≠ ASTType.Unknown :=
  ⟨rfl,
    (C12_resultType_never_reverts ((Call.new "f" []).setCallee (some 5))
      (fun _ => { resultType_ := .Unknown }) 5 rfl).1 (.Concrete 3)
      ((Call.new "f" []).setCallee (some 5))
      (Function.update (fun _ => { resultType_ := .Unknown }) 5 { resultType_ := .Concrete 3 })
      rfl⟩

/-- C13, as stated, fails: on a call bound to a callee of concrete result type
`1`, `setResultType` with the concrete type `2` is accepted and the call still
reads type `1`, not `2`. -/
theorem C13_no_overwrite_counterexample :
    (((Call.new "f" []).setCallee (some 5)).setResultType (.Concrete 2)
        (fun _ => { resultType_ := .Concrete 1 })).isSome = true ∧
      (∀ c1 store1,
        ((Call.new "f" []).setCallee (some 5)).setResultType (.Concrete 2)
            (fun _ => { resultType_ := .Concrete 1 }) = some (c1, store1) →
          c1.resultType store1 = ASTType.Concrete 1 ∧
            c1.resultType store1 ≠ ASTType.Concrete 2) := by
  refine ⟨rfl, ?_⟩
  intro c1 store1 h
  have hread := setResultType_bound_read _ _ _ 5 c1 store1 rfl h
  simp only [Function.resultType, ASTType.isUnknown, Bool.false_eq_true, if_false] at hread
  rw [hread]
  exact ⟨rfl, by decide⟩

/-- C13 (amended): for a call whose bound callee already has a concrete result
type `T1` and every concrete type `T2`, `setResultType(T2)` succeeds without
error and changes nothing: the call node and the function store are as before
and `resultType()` still returns `T1`. -/
theorem C13_concrete_type_is_kept (c : Call) (store : FunctionStore) (F : Nat)
    (T1 T2 : ASTType) (hb : c.callee_ = some F) (h1 : (store F).resultType = T1)
    (hT1 : T1.isUnknown = false) (hT2 : T2.isUnknown = false) :
    c.setResultType T2 store = some (c, store) ∧ c.resultType store = T1 := by
  refine ⟨?_, ?_⟩
  · unfold Call.setResultType
    rw [hT2, hb]
    simp [h1, hT1]
  · simp [Call.resultType, hb, h1]

/-- C13 (amended), on a callee of concrete type `1` and the concrete type `2`. -/
theorem C13_concrete_type_is_kept_witness :
    ((Call.new "f" []).setCallee (some 5)).resultType
        (fun _ => { resultType_ := .Concrete 1 }) = ASTType.Concrete 1 :=
  (C13_concrete_type_is_kept ((Call.new "f" []).setCallee (some 5))
    (fun _ => { resultType_ := .Concrete 1 }) 5 (.Concrete 1) (.Concrete 2)
    rfl rfl rfl rfl).2

/-- C19: for a call with no bound callee and a concrete type `T`,
`setResultType(T)` is accepted and changes nothing: the call node, its own
result type included, and the function store are as before, so `resultType()`
returns afterwards what it returned before, which is `Unknown` for a call as
constructed. -/
theorem C19_unbound_setResultType_is_noop (c : Call) (store : FunctionStore) (T : ASTType)
    (hn : c.callee_ = none) (hT : T.isUnknown = false) :
    c.setResultType T store = some (c, store) ∧
      (∀ c1 store1, c.setResultType T store = some (c1, store1) →
        c1.resultType_ = c.resultType_ ∧ c1.resultType store1 = c.resultType store) ∧
      ∀ (calleeName : Text) (args : List Nat) c1 store1,
        (Call.new calleeName args).setResultType T store = some (c1, store1) →
          c1.resultType store1 = ASTType.Unknown := by
  have h : ∀ d : Call, d.callee_ = none → d.setResultType T store = some (d, store) := by
    intro d hd
    unfold Call.setResultType
    rw [hT, hd]
    simp
  refine ⟨h c hn, ?_, ?_⟩
  · intro c1 store1 hs
    rw [h c hn] at hs
    simp only [Option.some.injEq, Prod.mk.injEq] at hs
    rw [← hs.1, ← hs.2]
    exact ⟨rfl, rfl⟩
  · intro calleeName args c1 store1 hs
    rw [h _ rfl] at hs
    simp only [Option.some.injEq, Prod.mk.injEq] at hs
    rw [← hs.1, ← hs.2]
    rfl

/-- C19, on a newly constructed call and the concrete type `3`. -/
theorem C19_unbound_setResultType_is_noop_witness :
    (Call.new "f" [1, 2]).setResultType (.Concrete 3) (fun _ => { resultType_ := .Unknown }) =
      some (Call.new "f" [1, 2], fun _ => { resultType_ := .Unknown }) :=
  (C19_unbound_setResultType_is_noop (Call.new "f" [1, 2])
    (fun _ => { resultType_ := .Unknown }) (.Concrete 3) rfl rfl).1

/-! ### Invariants of a scope's table -/

/-- A new scope has no overloads. -/
theorem overloads_new (self block : Nat) (name : Text) :
    (BlockScope.new self block).overloads name = [] := by
  simp [BlockScope.new, BlockScope.overloads, mapFind]

/-- The overload list of the registered name after one registration: extended
by the new entry when the flag is true, as before otherwise. -/
theorem overloads_setFunctionSymbolTarget_same (bs : BlockScope) (name : Text)
    (hueT FT V : Nat) :
    (bs.setFunctionSymbolTarget name hueT FT V).2.overloads name =
      if (bs.setFunctionSymbolTarget name hueT FT V).1 = true then
        bs.overloads name ++
          [{ hueType := hueT, type := FT, value := V, owningScope := bs.self }]
      else bs.overloads name := by
  cases hb : (bs.setFunctionSymbolTarget name hueT FT V).1 with
  | true =>
    have hm := setFunctionSymbolTarget_true_overloads bs name hueT FT V hb
    simp only [if_true]
    unfold BlockScope.overloads at hm ⊢
    rw [hm]
    rfl
  | false =>
    rw [setFunctionSymbolTarget_false_unchanged bs name hueT FT V hb]
    simp

/-- The overload list of another name is not touched by a registration. -/
theorem overloads_setFunctionSymbolTarget_other (bs : BlockScope) (name other : Text)
    (hueT FT V : Nat) (h : other ≠ name) :
    (bs.setFunctionSymbolTarget name hueT FT V).2.overloads other = bs.overloads other := by
  unfold BlockScope.overloads
  rw [setFunctionSymbolTarget_other bs name other hueT FT V h]

/-- One registration keeps the backend types of every overload list pairwise
distinct. -/
theorem setFunctionSymbolTarget_nodup (bs : BlockScope) (name : Text) (hueT FT V : Nat)
    (hinv : ∀ n, ((bs.overloads n).map FunctionSymbolTarget.type).Nodup) (n : Text) :
    (((bs.setFunctionSymbolTarget name hueT FT V).2.overloads n).map
      FunctionSymbolTarget.type).Nodup := by
  by_cases hn : n = name
  · subst hn
    rw [overloads_setFunctionSymbolTarget_same]
    cases hb : (bs.setFunctionSymbolTarget n hueT FT V).1 with
    | false => simpa using hinv n
    | true =>
      simp only [if_true, List.map_append, List.map_cons, List.map_nil]
      have hfresh : FT ∉ (bs.overloads n).map FunctionSymbolTarget.type := by
        intro hmem
        obtain ⟨e, he, het⟩ := List.mem_map.1 hmem
        have hf := (setFunctionSymbolTarget_fst bs n hueT FT V).2 ⟨e, he, het⟩
        rw [hb] at hf
        exact absurd hf (by simp)
      rw [List.nodup_append]
      refine ⟨hinv n, List.nodup_singleton _, ?_⟩
      intro a ha hb2
      simp only [List.mem_singleton] at hb2
      subst hb2
      exact hfresh ha
  · rw [overloads_setFunctionSymbolTarget_other bs name n hueT FT V hn]
    exact hinv n

/-- One registration keeps every entry owned by the scope that holds it. -/
theorem setFunctionSymbolTarget_owning (bs : BlockScope) (name : Text) (hueT FT V : Nat)
    (hinv : ∀ n, ∀ e ∈ bs.overloads n, e.owningScope = bs.self) (n : Text) :
    ∀ e ∈ (bs.setFunctionSymbolTarget name hueT FT V).2.overloads n,
      e.owningScope = (bs.setFunctionSymbolTarget name hueT FT V).2.self := by
  rw [(setFunctionSymbolTarget_self bs name hueT FT V).1]
  by_cases hn : n = name
  · subst hn
    rw [overloads_setFunctionSymbolTarget_same]
    cases hb : (bs.setFunctionSymbolTarget n hueT FT V).1 with
    | false => simpa using hinv n
    | true =>
      simp only [if_true]
      intro e he
      rcases List.mem_append.1 he with h1 | h1
      · exact hinv n e h1
      · simp only [List.mem_singleton] at h1
        rw [h1]
  · rw [overloads_setFunctionSymbolTarget_other bs name n hueT FT V hn]
    exact hinv n

/-- Both invariants hold after any sequence of registrations started in a scope
where they hold; the address of the scope is kept. -/
theorem registerAll_invariant (bs : BlockScope) (ops : List Registration)
    (hnodup : ∀ n, ((bs.overloads n).map FunctionSymbolTarget.type).Nodup)
    (hown : ∀ n, ∀ e ∈ bs.overloads n, e.owningScope = bs.self) :
    (bs.registerAll ops).self = bs.self ∧
      (∀ n, (((bs.registerAll ops).overloads n).map FunctionSymbolTarget.type).Nodup) ∧
      ∀ n, ∀ e ∈ (bs.registerAll ops).overloads n, e.owningScope = (bs.registerAll ops).self := by
  induction ops generalizing bs with
  | nil => exact ⟨rfl, hnodup, hown⟩
  | cons r rest ih =>
    simp only [BlockScope.registerAll]
    have h := ih (bs.setFunctionSymbolTarget r.name r.hueT r.FT r.V).2
      (setFunctionSymbolTarget_nodup bs r.name r.hueT r.FT r.V hnodup)
      (setFunctionSymbolTarget_owning bs r.name r.hueT r.FT r.V hown)
    refine ⟨?_, h.2.1, h.2.2⟩
    rw [h.1, (setFunctionSymbolTarget_self bs r.name r.hueT r.FT r.V).1]

/-- In a reachable scope every entry is owned by the scope. -/
theorem reachable_owning (bs : BlockScope) (h : bs.Reachable) (n : Text) :
    ∀ e ∈ bs.overloads n, e.owningScope = bs.self := by
  obtain ⟨self, block, ops, rfl⟩ := h
  exact (registerAll_invariant (BlockScope.new self block) ops
    (fun n => by simp [overloads_new])
    (fun n e he => by simp [overloads_new] at he)).2.2 n

/-- What resolution returns are the entries of the overload lists, for the
resolved name, of the scopes on the stack. -/
theorem mem_lookupFunctionSymbols (blockStack_ : List BlockScope) (symbol : Symbol)
    (x : FunctionSymbolTarget) :
    x ∈ lookupFunctionSymbols blockStack_ symbol ↔
      ∃ bs ∈ blockStack_, x ∈ bs.overloads symbol.lookupName := by
  rw [lookupFunctionSymbols_eq]
  simp only [List.mem_flatten, List.mem_map, List.mem_reverse]
  constructor
  · rintro ⟨l, ⟨bs, hbs, rfl⟩, hx⟩
    exact ⟨bs, hbs, hx⟩
  · rintro ⟨bs, hbs, hx⟩
    exact ⟨_, ⟨bs, hbs, rfl⟩, hx⟩

/-! ### Claims on scope visibility and table invariants -/

/-- C14: an entry `e` registered under the resolved name in scope `S` is
returned by `lookupFunctionSymbols` while `S` is on the stack, at any depth; and
once `S`, on top of a stack of reachable scopes at other addresses, is popped,
the lookup returns no entry whose owning scope is `S`, in particular not `e`,
and returns the empty list if no remaining scope declares the name. -/
theorem C14_visible_iff_scope_on_stack (lower upper : List BlockScope) (S : BlockScope)
    (symbol : Symbol) (e : FunctionSymbolTarget)
    (he : e ∈ S.overloads symbol.lookupName) (hS : S.Reachable)
    (hlower : ∀ bs ∈ lower, bs.Reachable) (haddr : ∀ bs ∈ lower, bs.self ≠ S.self) :
    e ∈ lookupFunctionSymbols (lower ++ [S] ++ upper) symbol ∧
      popScope (pushScope lower S) = lower ∧
      (∀ x ∈ lookupFunctionSymbols (popScope (pushScope lower S)) symbol,
        x.owningScope ≠ S.self) ∧
      e ∉ lookupFunctionSymbols (popScope (pushScope lower S)) symbol ∧
      ((∀ bs ∈ lower, bs.lookupFunctionSymbolTargets symbol.lookupName = none) →
        lookupFunctionSymbols (popScope (pushScope lower S)) symbol = []) := by
  have hpop : popScope (pushScope lower S) = lower := by
    simp [popScope, pushScope]
  have hnone : ∀ x ∈ lookupFunctionSymbols lower symbol, x.owningScope ≠ S.self := by
    intro x hx
    obtain ⟨bs, hbs, hxb⟩ := (mem_lookupFunctionSymbols lower symbol x).1 hx
    rw [reachable_owning bs (hlower bs hbs) _ x hxb]
    exact haddr bs hbs
  refine ⟨?_, hpop, ?_, ?_, ?_⟩
  · rw [mem_lookupFunctionSymbols]
    exact ⟨S, by simp, he⟩
  · rw [hpop]
    exact hnone
  · rw [hpop]
    intro hin
    exact hnone e hin (reachable_owning S hS _ e he)
  · intro hdecl
    rw [hpop, lookupFunctionSymbols_eq]
    simp only [List.flatten_eq_nil_iff, List.mem_map, List.mem_reverse]
    rintro l ⟨bs, hbs, rfl⟩
    have := hdecl bs hbs
    unfold BlockScope.lookupFunctionSymbolTargets at this
    simp [BlockScope.overloads, this]

/-- C14, with `f` registered in the scope at address `8` pushed on the scope at
address `7`, which declares `g` only. -/
theorem C14_visible_iff_scope_on_stack_witness :
    ({ hueType := 1, type := 10, value := 100, owningScope := 8 } : FunctionSymbolTarget) ∈
        lookupFunctionSymbols
          ([(BlockScope.new 7 3).registerAll [⟨"g", 5, 20, 300⟩]] ++
            [(BlockScope.new 8 4).registerAll [⟨"f", 1, 10, 100⟩]] ++ [])
          { pathname := ["f"] } ∧
      lookupFunctionSymbols
          (popScope (pushScope [(BlockScope.new 7 3).registerAll [⟨"g", 5, 20, 300⟩]]
            ((BlockScope.new 8 4).registerAll [⟨"f", 1, 10, 100⟩])))
          { pathname := ["f"] } = [] :=
  have h := C14_visible_iff_scope_on_stack
    [(BlockScope.new 7 3).registerAll [⟨"g", 5, 20, 300⟩]] []
    ((BlockScope.new 8 4).registerAll [⟨"f", 1, 10, 100⟩]) { pathname := ["f"] }
    { hueType := 1, type := 10, value := 100, owningScope := 8 }
    (by decide) ⟨8, 4, [⟨"f", 1, 10, 100⟩], rfl⟩
    (fun bs hbs => by
      rw [List.mem_singleton] at hbs
      exact ⟨7, 3, [⟨"g", 5, 20, 300⟩], hbs⟩)
    (fun bs hbs => by
      rw [List.mem_singleton] at hbs
      rw [hbs]
      decide)
  ⟨h.1, h.2.2.2.2 (fun bs hbs => by
    rw [List.mem_singleton] at hbs
    rw [hbs]
    decide)⟩

/-- C18: in every scope reached from an empty scope by any sequence of
`setFunctionSymbolTarget` calls, the entries of each name's overload list have
pairwise distinct backend function types, and every entry's `owningScope` is the
address of the scope that holds it. -/
theorem C18_scope_table_invariant (self block : Nat) (ops : List Registration)
    (name : Text) :
    (((BlockScope.new self block).registerAll ops).overloads name).Pairwise
        (fun a b => a.type ≠ b.type) ∧
      ((((BlockScope.new self block).registerAll ops).overloads name).map
        FunctionSymbolTarget.type).Nodup ∧
      (∀ e ∈ ((BlockScope.new self block).registerAll ops).overloads name,
        e.owningScope = ((BlockScope.new self block).registerAll ops).self) ∧
      ((BlockScope.new self block).registerAll ops).self = self := by
  have h := registerAll_invariant (BlockScope.new self block) ops
    (fun n => by simp [overloads_new])
    (fun n e he => by simp [overloads_new] at he)
  refine ⟨?_, h.2.1 name, h.2.2 name, h.1⟩
  have hnd := h.2.1 name
  rw [List.Nodup, List.pairwise_map] at hnd
  exact hnd

/-- C20: `lookupFunctionSymbols` depends only on the first component of the
pathname: two symbols whose pathnames start with the same component resolve to
the same list, whatever follows, and a symbol with an empty pathname resolves as
the empty name `Text::Empty` does. -/
theorem C20_lookup_uses_first_component (blockStack_ : List BlockScope) (first : Text)
    (rest1 rest2 : List Text) :
    lookupFunctionSymbols blockStack_ { pathname := first :: rest1 } =
        lookupFunctionSymbols blockStack_ { pathname := first :: rest2 } ∧
      lookupFunctionSymbols blockStack_ { pathname := first :: rest1 } =
        (blockStack_.reverse.map (fun bs => bs.overloads first)).flatten ∧
      lookupFunctionSymbols blockStack_ { pathname := [] } =
        lookupFunctionSymbols blockStack_ { pathname := [Text.Empty] } ∧
      lookupFunctionSymbols blockStack_ { pathname := [] } =
        (blockStack_.reverse.map (fun bs => bs.overloads Text.Empty)).flatten := by
  have h1 : ∀ rest, Symbol.lookupName { pathname := first :: rest } = first := by
    intro rest
    simp [Symbol.lookupName]
  have h2 : Symbol.lookupName { pathname := [] } = Text.Empty := by
    simp [Symbol.lookupName]
  have h3 : Symbol.lookupName { pathname := [Text.Empty] } = Text.Empty := by
    simp [Symbol.lookupName]
  refine ⟨?_, ?_, ?_, ?_⟩
  · rw [lookupFunctionSymbols_eq, lookupFunctionSymbols_eq, h1, h1]
  · rw [lookupFunctionSymbols_eq, h1]
  · rw [lookupFunctionSymbols_eq, lookupFunctionSymbols_eq, h2, h3]
  · rw [lookupFunctionSymbols_eq, h2]

/-! ### Claims on backend types, external functions and modules -/

/-- A pointer type is not a function type. -/
theorem not_isFunctionTy_of_isPointerTy (T : IRType) (h : T.isPointerTy = true) :
    T.isFunctionTy = false := by
  unfold IRType.isPointerTy at h
  unfold IRType.isFunctionTy
  simp only [decide_eq_true_eq] at h
  rw [h]
  decide

/-- The result on a value of function type. -/
theorem functionTypeForValue_function (v : ValueObject) (hf : v.getType.isFunctionTy = true) :
    functionTypeForValue (some v) = some v.getType := by
  simp [functionTypeForValue, hf]

/-- The result on a value whose type is a pointer with one contained type. -/
theorem functionTypeForValue_pointer (v : ValueObject) (C : IRType)
    (hp : v.getType.isPointerTy = true) (hc : v.getType.containedTypes = [C]) :
    functionTypeForValue (some v) = if C.isFunctionTy = true then some C else none := by
  have hf := not_isFunctionTy_of_isPointerTy _ hp
  simp [functionTypeForValue, hf, hp, IRType.getNumContainedTypes, hc,
    IRType.getContainedType]

/-- The result on the remaining values. -/
theorem functionTypeForValue_other (v : ValueObject) (hf : v.getType.isFunctionTy = false)
    (h : v.getType.isPointerTy = false ∨ v.getType.containedTypes.length ≠ 1) :
    functionTypeForValue (some v) = none := by
  rcases h with h | h
  · simp [functionTypeForValue, hf, h]
  · simp [functionTypeForValue, hf, IRType.getNumContainedTypes, h]

/-- C15: `functionTypeForValue(V)` returns a function type if and only if `V` is
non-null and its type is either a function type, which is then returned, or a
pointer type with exactly one contained type that is a function type, which is
then returned; in every other case (a null `V`, a pointer to a non-function
type, a type that is neither pointer nor function) it returns null. -/
theorem C15_functionTypeForValue_characterised (V : Option ValueObject) (FT : IRType) :
    (functionTypeForValue V = some FT ↔
        ∃ v, V = some v ∧
          ((v.getType.isFunctionTy = true ∧ FT = v.getType) ∨
            (v.getType.isPointerTy = true ∧
              ∃ C, v.getType.containedTypes = [C] ∧ C.isFunctionTy = true ∧ FT = C))) ∧
      (functionTypeForValue V = some FT → FT.isFunctionTy = true) ∧
      functionTypeForValue none = none ∧
      (∀ v : ValueObject, v.getType.isFunctionTy = false → v.getType.isPointerTy = false →
        functionTypeForValue (some v) = none) ∧
      (∀ (v : ValueObject) (C : IRType), v.getType.isPointerTy = true →
        v.getType.containedTypes = [C] → C.isFunctionTy = false →
        functionTypeForValue (some v) = none) := by
  have hiff : functionTypeForValue V = some FT ↔
      ∃ v, V = some v ∧
        ((v.getType.isFunctionTy = true ∧ FT = v.getType) ∨
          (v.getType.isPointerTy = true ∧
            ∃ C, v.getType.containedTypes = [C] ∧ C.isFunctionTy = true ∧ FT = C)) := by
    constructor
    · intro h
      cases V with
      | none => exact absurd h (by simp [functionTypeForValue])
      | some v =>
        refine ⟨v, rfl, ?_⟩
        cases hf : v.getType.isFunctionTy with
        | true =>
          rw [functionTypeForValue_function v hf] at h
          exact Or.inl ⟨rfl, (Option.some.inj h).symm⟩
        | false =>
          cases hp : v.getType.isPointerTy with
          | false =>
            rw [functionTypeForValue_other v hf (Or.inl hp)] at h
            exact absurd h (by simp)
          | true =>
            cases hc : v.getType.containedTypes with
            | nil =>
              rw [functionTypeForValue_other v hf (Or.inr (by simp [hc]))] at h
              exact absurd h (by simp)
            | cons C rest =>
              cases rest with
              | cons C2 rest2 =>
                rw [functionTypeForValue_other v hf (Or.inr (by simp [hc]))] at h
                exact absurd h (by simp)
              | nil =>
                rw [functionTypeForValue_pointer v C hp hc] at h
                cases hcf : C.isFunctionTy with
                | false =>
                  rw [hcf] at h
                  exact absurd h (by simp)
                | true =>
                  rw [hcf] at h
                  simp only [if_true] at h
                  exact Or.inr ⟨rfl, C, rfl, hcf, (Option.some.inj h).symm⟩
    · rintro ⟨v, rfl, hcase⟩
      rcases hcase with ⟨hf, hFT⟩ | ⟨hp, C, hc, hcf, hFT⟩
      · rw [functionTypeForValue_function v hf, hFT]
      · rw [functionTypeForValue_pointer v C hp hc, hcf, hFT]
        rfl
  refine ⟨hiff, ?_, rfl, ?_, ?_⟩
  · intro h
    obtain ⟨v, _, hcase⟩ := hiff.1 h
    rcases hcase with ⟨hf, hFT⟩ | ⟨_, C, _, hcf, hFT⟩
    · rw [hFT]; exact hf
    · rw [hFT]; exact hcf
  · intro v hf hp
    exact functionTypeForValue_other v hf (Or.inl hp)
  · intro v C hp hc hcf
    rw [functionTypeForValue_pointer v C hp hc, hcf]
    rfl

/-- C15, on a value whose type is a pointer to a function type. -/
theorem C15_functionTypeForValue_characterised_witness :
    (functionTypeForValue
        (some { getType := .mk .PointerTyID [.mk .FunctionTyID [.mk .IntegerTyID []]] })).isSome =
      true ∧
      functionTypeForValue (some { getType := .mk .PointerTyID [.mk .IntegerTyID []] }) = none :=
  ⟨rfl,
    (C15_functionTypeForValue_characterised none IRType.voidTy).2.2.2.2
      { getType := .mk .PointerTyID [.mk .IntegerTyID []] } (.mk .IntegerTyID []) rfl rfl rfl⟩

/-- With a declared result type that the translation maps to a backend type,
`codegenExternalFunction` passes that type to `codegenFunctionType`; it reports
the transcoding error exactly when the translation yields null. -/
theorem codegenExternalFunction_cases {σ : Type} (cg : TypeCodegen σ)
    (node : ExternalFunction) (st : σ) :
    (∀ T, cg.IRTypeForASTType node.functionType.resultType = some T →
        codegenExternalFunction cg node st =
          cg.codegenFunctionType node.functionType node.name.UTF8String T st) ∧
      (cg.IRTypeForASTType node.functionType.resultType = none →
        codegenExternalFunction cg node st =
          cg.error "Unable to transcode return type from AST to IR" st) := by
  refine ⟨fun T h => ?_, fun h => ?_⟩
  · simp [codegenExternalFunction, h]
  · simp [codegenExternalFunction, h]

/-- C16, evaluated where the code departs from it: for an external function
whose declared result type is `Unknown`, with a type translation that has no
backend type for `Unknown`, `codegenExternalFunction` does not substitute the
void type but returns the failure sentinel of the transcoding error, while
`returnTypeForFunctionType` on the same function type yields the void type. -/
theorem C16_unknown_result_type_not_substituted {σ : Type} (cg : TypeCodegen σ)
    (node : ExternalFunction) (st : σ)
    (hu : node.functionType.resultType = ASTType.Unknown)
    (hnull : cg.IRTypeForASTType ASTType.Unknown = none) :
    codegenExternalFunction cg node st =
        cg.error "Unable to transcode return type from AST to IR" st ∧
      (codegenExternalFunction cg node st).1 = 0 ∧
      (codegenExternalFunction cg node st).2 =
        cg.report "Unable to transcode return type from AST to IR" st ∧
      returnTypeForFunctionType cg node.functionType = some IRType.voidTy := by
  have h : codegenExternalFunction cg node st =
      cg.error "Unable to transcode return type from AST to IR" st := by
    apply (codegenExternalFunction_cases cg node st).2
    rw [hu]
    exact hnull
  refine ⟨h, ?_, ?_, ?_⟩
  · rw [h]; rfl
  · rw [h]; rfl
  · simp [returnTypeForFunctionType, ASTFunctionType.resultTypeIsUnknown, hu,
      ASTType.isUnknown]

/-- C16, at the external function `puts` with unknown result type and a
translation that maps every concrete type to the 64-bit integer type and has no
backend type for `Unknown`: the failure sentinel is returned and the message is
reported. -/
theorem C16_unknown_result_type_not_substituted_witness :
    codegenExternalFunction
        ({ IRTypeForASTType := fun T =>
            match T with
            | .Unknown => none
            | .Concrete _ => some (.mk .IntegerTyID [])
           codegenFunctionType := fun _ _ _ st => (1, st)
           report := fun m st => st ++ [m] } : TypeCodegen (List String))
        { name := "puts", functionType := { args := [], resultType := .Unknown } } [] =
      (0, ["Unable to transcode return type from AST to IR"]) :=
  (C16_unknown_result_type_not_substituted
    ({ IRTypeForASTType := fun T =>
        match T with
        | .Unknown => none
        | .Concrete _ => some (.mk .IntegerTyID [])
       codegenFunctionType := fun _ _ _ st => (1, st)
       report := fun m st => st ++ [m] } : TypeCodegen (List String))
    { name := "puts", functionType := { args := [], resultType := .Unknown } } [] rfl rfl).1

/-- C17: `genModule` returns a non-null module if and only if the generation of
the root function returns a non-null value; on success the module returned is
the one created and it is not deleted; when root generation fails the module is
deleted and null is returned; in both cases `module_` is null on return. -/
theorem C17_genModule_null_iff_root_fails {σ : Type} (cg : ModuleCodegen σ)
    (moduleName : Text) (root : Nat) (v : VisitorState σ) :
    ((genModule cg moduleName root v).1 ≠ none ↔
        (cg.codegenFunction root "main".toList "main".toList
          { v with module_ := some (cg.newModule moduleName.UTF8String) }).1 ≠ 0) ∧
      ((cg.codegenFunction root "main".toList "main".toList
          { v with module_ := some (cg.newModule moduleName.UTF8String) }).1 ≠ 0 →
        (genModule cg moduleName root v).1 = some (cg.newModule moduleName.UTF8String) ∧
          (genModule cg moduleName root v).2.deleted =
            (cg.codegenFunction root "main".toList "main".toList
              { v with module_ := some (cg.newModule moduleName.UTF8String) }).2.deleted) ∧
      ((cg.codegenFunction root "main".toList "main".toList
          { v with module_ := some (cg.newModule moduleName.UTF8String) }).1 = 0 →
        (genModule cg moduleName root v).1 = none ∧
          (genModule cg moduleName root v).2.deleted =
            (cg.codegenFunction root "main".toList "main".toList
              { v with module_ := some (cg.newModule moduleName.UTF8String) }).2.deleted ++
              [cg.newModule moduleName.UTF8String]) ∧
      (genModule cg moduleName root v).2.module_ = none := by
  unfold genModule
  simp only []
  generalize cg.codegenFunction root "main".toList "main".toList
    { v with module_ := some (cg.newModule moduleName.UTF8String) } = r
  by_cases h : r.1 = 0
  · simp [h]
  · simp [h]

/-- C17, with a root function whose generation fails: the module created at
address `40` is deleted, null is returned and `module_` is null. -/
theorem C17_genModule_null_iff_root_fails_witness :
    (genModule
        ({ newModule := fun _ => 40, codegenFunction := fun _ _ _ st => (0, st) } :
          ModuleCodegen Unit)
        "m" 9 { module_ := none, deleted := [], rest := () }).1 = none ∧
      (genModule
        ({ newModule := fun _ => 40, codegenFunction := fun _ _ _ st => (0, st) } :
          ModuleCodegen Unit)
        "m" 9 { module_ := none, deleted := [], rest := () }).2.deleted = [40] :=
  (C17_genModule_null_iff_root_fails
    ({ newModule := fun _ => 40, codegenFunction := fun _ _ _ st => (0, st) } :
      ModuleCodegen Unit)
    "m" 9 { module_ := none, deleted := [], rest := () }).2.2.1 rfl

end Hue
